import Mathlib

/-!
Verification of the Memory Battle WebSocket game server.

This file gives a shallow embedding of the authoritative multiplayer
game-room server (the `server.js` source of the repository): its data model
(cards, players, rooms), its pure deck generator, its room operations
(join, leave, start, flip, match resolution, turn timeout, game end), its
room registry / matchmaking, and the public (redacted) room-state
projection used for every broadcast.

Randomness: the server shuffles with a Fisher-Yates loop driven by
`Math.floor(Math.random() * (i + 1))`, which at loop index `i` produces a
value in `[0, i]`.  We parameterise shuffles by an arbitrary function
`js : Nat → Nat` and take the swap target at loop index `i` as
`js i % (i + 1)`, which ranges over exactly the same set of values; every
concrete execution of the JS code corresponds to some `js`.

Timers: `setInterval`/`setTimeout` effects are modelled as explicit state
transitions.  `startTurnTimer`'s state effect is resetting `turnTimeLeft`
to the full limit; one interval tick is the `tick` function; the scheduled
match resolution is the `checkMatch` step of the transition relation.

Fallibility: operations that would throw a `TypeError` in JS on states the
server never reaches (out-of-bounds card indices inside `checkMatch` /
`handleTimeUp`, missing grid configuration, missing players in `endGame`)
return `Option`, with `none` standing for the thrown exception.
-/

/-- One entry of the CARD_SYMBOLS palette: `{ id, symbol, name }`. -/
structure SymbolEntry where
  id : Nat
  symbol : String
  name : String
deriving DecidableEq, Repr

/-- The fixed 18-symbol palette (ids 0..17) from the server source. -/
def CARD_SYMBOLS : List SymbolEntry :=
  [⟨0, "🦊", "Fox"⟩, ⟨1, "🐺", "Wolf"⟩, ⟨2, "🦁", "Lion"⟩, ⟨3, "🐯", "Tiger"⟩,
   ⟨4, "🦋", "Butterfly"⟩, ⟨5, "🌸", "Cherry Blossom"⟩, ⟨6, "🌙", "Moon"⟩,
   ⟨7, "⭐", "Star"⟩, ⟨8, "🔮", "Crystal Ball"⟩, ⟨9, "🗡️", "Sword"⟩,
   ⟨10, "🛡️", "Shield"⟩, ⟨11, "🏰", "Castle"⟩, ⟨12, "🐉", "Dragon"⟩,
   ⟨13, "🧙", "Wizard"⟩, ⟨14, "👑", "Crown"⟩, ⟨15, "💎", "Gem"⟩,
   ⟨16, "🔥", "Fire"⟩, ⟨17, "💧", "Water"⟩]

/-- Grid configuration record: `{ rows, cols, totalCards, totalPairs }`. -/
structure GridConfig where
  rows : Nat
  cols : Nat
  totalCards : Nat
  totalPairs : Nat
deriving DecidableEq, Repr

/-- The GRID_CONFIGS lookup table; `none` models a key miss (JS `undefined`). -/
def GRID_CONFIGS (g : String) : Option GridConfig :=
  if g = "4x4" then some ⟨4, 4, 16, 8⟩
  else if g = "4x6" then some ⟨4, 6, 24, 12⟩
  else if g = "6x6" then some ⟨6, 6, 36, 18⟩
  else none

/-- TURN_TIME_LIMIT = 30 seconds. -/
def TURN_TIME_LIMIT : Nat := 30

/-- Total pairs of a grid size; 0 for an unknown key (only used on rooms,
whose grid size is always a valid key — the JS would throw on a miss). -/
def gridTotalPairs (g : String) : Nat :=
  match GRID_CONFIGS g with
  | some cfg => cfg.totalPairs
  | none => 0

/-- A game card: `{ id, symbolId, symbol, isFlipped, isMatched }`. -/
structure Card where
  id : Nat
  symbolId : Nat
  symbol : String
  isFlipped : Bool
  isMatched : Bool
deriving DecidableEq, Repr

/-- A player record; the `ws` connection handle is identified by `id` in
this embedding (each player owns exactly one socket). -/
structure Player where
  id : String
  name : String
  avatar : String
  score : Nat
  isReady : Bool
deriving DecidableEq, Repr

/-- Room status: 'waiting' | 'playing' | 'finished'. -/
inductive Status where
  | waiting
  | playing
  | finished
deriving DecidableEq, Repr

/-- Authoritative room state.  `turnTimer` (the interval handle) has no
state content beyond being set or cleared; its lifecycle is captured by
the transition relation, so it is not a field here. -/
structure Room where
  id : String
  gridSize : String
  players : List Player
  cards : List Card
  currentPlayerIndex : Nat
  flippedIndices : List Nat
  matchedPairs : Nat
  status : Status
  turnTimeLeft : Nat
deriving DecidableEq, Repr

-- ============================================
-- Fisher-Yates shuffle (shuffleArray)
-- ============================================

/-- Swap the elements at positions `i` and `j`
(`[shuffled[i], shuffled[j]] = [shuffled[j], shuffled[i]]`); the identity
when either index is out of bounds (never the case in the source's loop). -/
@[irreducible] def swapIdx (l : List α) (i j : Nat) : List α :=
  match l[i]?, l[j]? with
  | some a, some b => (l.set i b).set j a
  | _, _ => l

/-- Descending Fisher-Yates loop: perform the swaps for loop indices
`i, i-1, ..., 1`, drawing the swap target for loop index `k` as
`js k % (k + 1)` (the model of `Math.floor(Math.random() * (k + 1))`). -/
def fyLoop (js : Nat → Nat) : List α → Nat → List α
  | l, 0 => l
  | l, i + 1 => fyLoop js (swapIdx l (i + 1) (js (i + 1) % (i + 2))) i

/-- The server's `shuffleArray`: copy, then Fisher-Yates from
`length - 1` down to `1`. -/
def shuffleArray (js : Nat → Nat) (l : List α) : List α :=
  fyLoop js l (l.length - 1)

theorem cons_set_perm (t : List α) (m : Nat) (x b : α) (hb : t[m]? = some b) :
    (b :: t.set m x).Perm (x :: t) := by
  induction t generalizing m with
  | nil => simp at hb
  | cons y s ih =>
    cases m with
    | zero =>
      simp only [List.getElem?_cons_zero, Option.some.injEq] at hb
      subst hb
      simpa using List.Perm.swap x y s
    | succ m =>
      simp only [List.getElem?_cons_succ] at hb
      have h1 : (b :: (y :: s).set (m + 1) x).Perm (y :: b :: s.set m x) := by
        simpa using List.Perm.swap y b (s.set m x)
      refine h1.trans ?_
      exact ((ih m hb).cons y).trans (List.Perm.swap x y s)

theorem set_set_perm (l : List α) (i j : Nat) (a b : α)
    (hi : l[i]? = some a) (hj : l[j]? = some b) :
    ((l.set i b).set j a).Perm l := by
  induction l generalizing i j with
  | nil => simp at hi
  | cons y t ih =>
    cases i with
    | zero =>
      simp only [List.getElem?_cons_zero, Option.some.injEq] at hi
      cases j with
      | zero =>
        simp only [List.getElem?_cons_zero, Option.some.injEq] at hj
        simp [← hi]
      | succ m =>
        simp only [List.getElem?_cons_succ] at hj
        rw [← hi]
        simpa using cons_set_perm t m y b hj
    | succ n =>
      simp only [List.getElem?_cons_succ] at hi
      cases j with
      | zero =>
        simp only [List.getElem?_cons_zero, Option.some.injEq] at hj
        rw [← hj]
        simpa using cons_set_perm t n y a hi
      | succ m =>
        simp only [List.getElem?_cons_succ] at hj
        simpa using (ih n m hi hj).cons y

theorem swapIdx_perm (l : List α) (i j : Nat) : (swapIdx l i j).Perm l := by
  unfold swapIdx
  cases hi : l[i]? with
  | none => simp
  | some a =>
    cases hj : l[j]? with
    | none => simp
    | some b => exact set_set_perm l i j a b hi hj

theorem fyLoop_perm (js : Nat → Nat) (l : List α) (n : Nat) :
    (fyLoop js l n).Perm l := by
  induction n generalizing l with
  | zero => exact List.Perm.refl l
  | succ i ih =>
    exact (ih _).trans (swapIdx_perm l (i + 1) (js (i + 1) % (i + 2)))

theorem shuffleArray_perm (js : Nat → Nat) (l : List α) :
    (shuffleArray js l).Perm l := fyLoop_perm js l (l.length - 1)

-- ============================================
-- Deck generation (generateCards)
-- ============================================

/-- Make one card of a pair from a palette symbol. -/
def mkCard (cid : Nat) (s : SymbolEntry) : Card :=
  { id := cid, symbolId := s.id, symbol := s.symbol,
    isFlipped := false, isMatched := false }

/-- The `selectedSymbols.forEach((symbol, index) => { cards.push(...);
cards.push(...); })` loop, with the running `index` made explicit. -/
def buildPairs : List SymbolEntry → Nat → List Card
  | [], _ => []
  | s :: rest, index =>
      mkCard (index * 2) s :: mkCard (index * 2 + 1) s :: buildPairs rest (index + 1)

/-- The server's `generateCards(gridSize)`: pick `totalPairs` random
symbols (shuffle the palette, take a prefix), duplicate each into a pair,
shuffle the pairs.  `none` models the `throw` on an unknown grid size.
`js1`/`js2` drive the two shuffles. -/
def generateCards (gridSize : String) (js1 js2 : Nat → Nat) : Option (List Card) :=
  match GRID_CONFIGS gridSize with
  | none => none
  | some config =>
      let numPairs := config.totalPairs
      let selectedSymbols := (shuffleArray js1 CARD_SYMBOLS).take numPairs
      some (shuffleArray js2 (buildPairs selectedSymbols 0))

-- ============================================
-- Public (redacted) room state and messages
-- ============================================

/-- A card as it appears in a broadcast `roomState`: `symbol`/`symbolId`
are `null` (`none`) unless the card is flipped or matched. -/
structure PubCard where
  id : Nat
  isFlipped : Bool
  isMatched : Bool
  symbol : Option String
  symbolId : Option Nat
deriving DecidableEq, Repr

/-- A player as it appears in a broadcast `roomState` (no socket). -/
structure PubPlayer where
  id : String
  name : String
  avatar : String
  score : Nat
  isReady : Bool
deriving DecidableEq, Repr

/-- The public projection of a room, as broadcast to clients. -/
structure PubRoomState where
  id : String
  gridSize : String
  players : List PubPlayer
  cards : List PubCard
  currentPlayerIndex : Nat
  matchedPairs : Nat
  totalPairs : Nat
  status : Status
  turnTimeLeft : Nat
deriving DecidableEq, Repr

/-- The server's `getPublicRoomState`.  The JS reads
`GRID_CONFIGS[room.gridSize].totalPairs`, which would throw for an unknown
grid size; rooms always carry a valid one, and `gridTotalPairs` returns 0
in that unreachable case. -/
def getPublicRoomState (room : Room) : PubRoomState :=
  { id := room.id
    gridSize := room.gridSize
    players := room.players.map fun p =>
      { id := p.id, name := p.name, avatar := p.avatar,
        score := p.score, isReady := p.isReady }
    cards := room.cards.map fun c =>
      { id := c.id
        isFlipped := c.isFlipped
        isMatched := c.isMatched
        -- Only reveal symbol if flipped or matched
        symbol := if c.isFlipped || c.isMatched then some c.symbol else none
        symbolId := if c.isFlipped || c.isMatched then some c.symbolId else none }
    currentPlayerIndex := room.currentPlayerIndex
    matchedPairs := room.matchedPairs
    totalPairs := gridTotalPairs room.gridSize
    status := room.status
    turnTimeLeft := room.turnTimeLeft }

/-- Outbound message bodies produced by the room operations. -/
inductive Msg where
  | PLAYER_JOINED (player : PubPlayer) (roomState : PubRoomState)
  | PLAYER_LEFT (playerId : String) (roomState : PubRoomState)
  | GAME_STARTED (roomState : PubRoomState)
  | CARD_FLIPPED (cardIndex : Nat) (card : Card) (playerId : String)
  | MATCH_RESULT (isMatch : Bool) (cardIndices : List Nat)
      (playerId : Option String) (playerScore : Option Nat)
      (matchedPairs : Option Nat) (totalPairs : Option Nat)
  | TURN_CHANGED (currentPlayerIndex : Nat) (roomState : PubRoomState)
  | TURN_TIME_UPDATE (timeLeft : Nat) (isWarning : Bool)
  | TURN_TIMEOUT (currentPlayerIndex : Nat) (roomState : PubRoomState)
  | GAME_ENDED (winnerId : Option String) (isDraw : Bool)
      (finalScores : List (String × Nat)) (roomState : PubRoomState)
  | ERROR (message : String)
deriving DecidableEq, Repr

/-- One outbound send: either a room-wide broadcast or a targeted send to
the single connection owned by the named player. -/
inductive Out where
  | bcast (m : Msg)
  | toPlayer (playerId : String) (m : Msg)
deriving DecidableEq, Repr

-- ============================================
-- Room operations
-- ============================================

/-- The state effect of `startTurnTimer`: the countdown restarts from the
full limit (clearing/arming the interval handle has no further state). -/
def startTurnTimerState (r : Room) : Room :=
  { r with turnTimeLeft := TURN_TIME_LIMIT }

/-- The body of `joinRoom`: reject when full, else append the player,
record the session, and broadcast PLAYER_JOINED.  The Bool is the JS
return value. -/
def joinRoom (room : Room) (player : Player) : Room × Bool × List Out :=
  if room.players.length ≥ 2 then (room, false, [])
  else
    let r := { room with players := room.players ++ [player] }
    (r, true,
     [Out.bcast (Msg.PLAYER_JOINED
        { id := player.id, name := player.name, avatar := player.avatar,
          score := 0, isReady := false }
        (getPublicRoomState r))])

/-- The body of `leaveRoom` once the session lookup has resolved `ws` to
this room and player id: remove the player, stop the timer; delete the
room when empty (`none`), else revert to waiting and broadcast. -/
def leaveRoom (room : Room) (playerId : String) : Option Room × List Out :=
  let players := room.players.filter fun p => p.id ≠ playerId
  if players.length = 0 then (none, [])
  else
    let r := { room with players := players, status := Status.waiting }
    (some r, [Out.bcast (Msg.PLAYER_LEFT playerId (getPublicRoomState r))])

/-- The server's `startGame`: no-op unless exactly 2 players; otherwise
reset the whole match state, regenerate the deck, zero the scores,
broadcast GAME_STARTED and start the turn timer.  `none` models the deck
generator throwing on an unknown grid size. -/
def startGame (room : Room) (js1 js2 : Nat → Nat) : Option (Room × List Out) :=
  if room.players.length ≠ 2 then some (room, [])
  else
    match generateCards room.gridSize js1 js2 with
    | none => none
    | some deck =>
        let r := { room with
                   status := Status.playing
                   currentPlayerIndex := 0
                   flippedIndices := []
                   matchedPairs := 0
                   turnTimeLeft := TURN_TIME_LIMIT
                   cards := deck
                   players := room.players.map fun p => { p with score := 0 } }
        some (startTurnTimerState r,
              [Out.bcast (Msg.GAME_STARTED (getPublicRoomState r))])

/-- Sequentially set `isFlipped = false` at each listed index
(`room.flippedIndices.forEach(idx => { room.cards[idx].isFlipped = false })`);
`none` models the TypeError on an out-of-bounds index. -/
def flipBackAll : List Card → List Nat → Option (List Card)
  | cards, [] => some cards
  | cards, i :: rest =>
      match cards[i]? with
      | none => none
      | some c => flipBackAll (cards.set i { c with isFlipped := false }) rest

/-- The server's `handleTimeUp`: flip back pending cards, clear
`flippedIndices`, switch the turn, broadcast TURN_TIMEOUT (with the state
as it is at that moment), then restart the turn timer. -/
def handleTimeUp (room : Room) : Option (Room × List Out) :=
  match flipBackAll room.cards room.flippedIndices with
  | none => none
  | some cards =>
      let r1 := { room with
                  cards := cards
                  flippedIndices := []
                  currentPlayerIndex := (room.currentPlayerIndex + 1) % 2 }
      some (startTurnTimerState r1,
            [Out.bcast (Msg.TURN_TIMEOUT r1.currentPlayerIndex (getPublicRoomState r1))])

/-- One `setInterval` tick of the turn timer: decrement `turnTimeLeft`;
at zero run `handleTimeUp`; within the last 10 seconds broadcast a
warning.  (`turnTimeLeft` never goes below zero: the timeout handler
resets it, so the Nat truncation at 0 is never exercised.) -/
def tick (room : Room) : Option (Room × List Out) :=
  let r := { room with turnTimeLeft := room.turnTimeLeft - 1 }
  if r.turnTimeLeft = 0 then handleTimeUp r
  else if r.turnTimeLeft ≤ 10 then
    some (r, [Out.bcast (Msg.TURN_TIME_UPDATE r.turnTimeLeft true)])
  else some (r, [])

/-- The `const playerIndex = room.players.findIndex(p => p.id === player.id)`
computation: `findIdx?` models `Array.findIndex`, which returns -1 on a
miss. -/
def playerIndexOf (room : Room) (player : Player) : Int :=
  match room.players.findIdx? (fun p => p.id == player.id) with
  | some n => (n : Int)
  | none => -1

/-- The server's `handleFlipCard` (turn check, index bounds check,
already-flipped/matched check, two-pending check, then flip + broadcast). -/
def handleFlipCard (room : Room) (player : Player) (cardIndex : Int) : Room × List Out :=
  if playerIndexOf room player != Int.ofNat room.currentPlayerIndex then
    (room, [Out.toPlayer player.id (Msg.ERROR "Not your turn!")])
  else if cardIndex < 0 ∨ (room.cards.length : Int) ≤ cardIndex then
    (room, [Out.toPlayer player.id (Msg.ERROR "Invalid card index")])
  else
    match room.cards[cardIndex.toNat]? with
    | none => (room, [])  -- unreachable: the bounds check passed
    | some card =>
        if card.isFlipped ∨ card.isMatched then (room, [])
        else if 2 ≤ room.flippedIndices.length then (room, [])
        else
          let flipped := { card with isFlipped := true }
          let r := { room with
                     cards := room.cards.set cardIndex.toNat flipped
                     flippedIndices := room.flippedIndices ++ [cardIndex.toNat] }
          (r, [Out.bcast (Msg.CARD_FLIPPED cardIndex.toNat
                 { id := card.id, symbol := card.symbol, symbolId := card.symbolId,
                   isFlipped := true, isMatched := false }
                 player.id)])

/-- The FLIP_CARD branch of `handleMessage`, after the session maps have
resolved the sender to this room and player: reject when the room is not
playing, else run `handleFlipCard`. -/
def flipCardMessage (room : Room) (player : Player) (cardIndex : Int) : Room × List Out :=
  if room.status ≠ Status.playing then
    (room, [Out.toPlayer player.id (Msg.ERROR "Game not in progress")])
  else handleFlipCard room player cardIndex

/-- The server's `endGame`: stop the timer, set status to finished,
determine winner (strictly greater score wins, equal scores is a draw) and
broadcast GAME_ENDED with final scores.  `none` models the TypeError when
the room does not hold two players. -/
def endGame (room : Room) : Option (Room × List Out) :=
  let r := { room with status := Status.finished }
  match r.players[0]?, r.players[1]? with
  | some player1, some player2 =>
      let wd : Option String × Bool :=
        if player2.score < player1.score then (some player1.id, false)
        else if player1.score < player2.score then (some player2.id, false)
        else (none, true)
      some (r, [Out.bcast (Msg.GAME_ENDED wd.1 wd.2
                 [(player1.id, player1.score), (player2.id, player2.score)]
                 (getPublicRoomState r))])
  | _, _ => none

/-- The server's `checkMatch` (the delayed resolution scheduled after the
second flip): read the two pending indices; on equal `symbolId` mark both
matched, bump `matchedPairs` and the current player's score, broadcast,
and either end the game (when all pairs are matched) or clear the pending
pair and restart the timer; on unequal flip both back, broadcast the
failure and a TURN_CHANGED, switch the turn, restart the timer.  `none`
models the TypeErrors on fewer than two pending indices, a bad card index,
a missing current player, or an unknown grid size. -/
def checkMatch (room : Room) : Option (Room × List Out) :=
  match room.flippedIndices with
  | idx1 :: idx2 :: _ =>
      match room.cards[idx1]?, room.cards[idx2]? with
      | some card1, some card2 =>
          if card1.symbolId = card2.symbolId then
            match room.players[room.currentPlayerIndex]?, GRID_CONFIGS room.gridSize with
            | some currentPlayer, some cfg =>
                let cards := (room.cards.set idx1 { card1 with isMatched := true }).set
                               idx2 { card2 with isMatched := true }
                let scored := { currentPlayer with score := currentPlayer.score + 1 }
                let r1 := { room with
                            cards := cards
                            players := room.players.set room.currentPlayerIndex scored
                            matchedPairs := room.matchedPairs + 1 }
                let msg1 := Out.bcast (Msg.MATCH_RESULT true [idx1, idx2]
                              (some scored.id) (some scored.score)
                              (some r1.matchedPairs) (some cfg.totalPairs))
                if r1.matchedPairs = cfg.totalPairs then
                  match endGame r1 with
                  | some (r2, out2) => some (r2, msg1 :: out2)
                  | none => none
                else
                  some (startTurnTimerState { r1 with flippedIndices := [] }, [msg1])
            | _, _ => none
          else
            let cards := (room.cards.set idx1 { card1 with isFlipped := false }).set
                           idx2 { card2 with isFlipped := false }
            let r1 := { room with
                        cards := cards
                        currentPlayerIndex := (room.currentPlayerIndex + 1) % 2
                        flippedIndices := [] }
            some (startTurnTimerState r1,
                  [Out.bcast (Msg.MATCH_RESULT false [idx1, idx2] none none none none),
                   Out.bcast (Msg.TURN_CHANGED r1.currentPlayerIndex (getPublicRoomState r1))])
      | _, _ => none
  | _ => none

-- ============================================
-- Room registry / matchmaking
-- ============================================

/-- The room registry, in registry-iteration order (a JS `Map` iterates in
insertion order; `Map.set` of an existing key updates in place). -/
abbrev Registry := List (String × Room)

/-- The server's `findAvailableRoom`: first room (in iteration order) with
the requested grid size, waiting, and fewer than 2 players. -/
def findAvailableRoom (reg : Registry) (gridSize : String) : Option Room :=
  (reg.find? fun kr =>
     kr.2.gridSize == gridSize && kr.2.status == Status.waiting
       && kr.2.players.length < 2).map (·.2)

/-- JS `Map.set`: replace in place when the key exists, else append. -/
def mapSet (reg : Registry) (k : String) (r : Room) : Registry :=
  if reg.any (fun kr => kr.1 == k) then
    reg.map fun kr => if kr.1 == k then (k, r) else kr
  else reg ++ [(k, r)]

/-- The server's `createRoom`: id = first 8 characters of a fresh uuid,
upper-cased (the uuid source is a parameter here); a brand-new waiting
room with a generated placeholder deck, `set` into the registry.  There is
no collision check on the id.  `none` models the deck generator throwing
on an unknown grid size. -/
def createRoom (reg : Registry) (genUuid : String) (gridSize : String)
    (js1 js2 : Nat → Nat) : Option (Registry × Room) :=
  let roomId := (genUuid.take 8).toUpper
  match generateCards gridSize js1 js2 with
  | none => none
  | some deck =>
      let room : Room :=
        { id := roomId
          gridSize := gridSize
          players := []
          cards := deck
          currentPlayerIndex := 0
          flippedIndices := []
          matchedPairs := 0
          status := Status.waiting
          turnTimeLeft := TURN_TIME_LIMIT }
      some (mapSet reg roomId room, room)

-- ============================================
-- Transition system over a single room
-- ============================================

/-- A room as created by `createRoom` (for some uuid, grid size and
shuffle randomness). -/
def RoomInit (r : Room) : Prop :=
  ∃ reg genUuid gridSize js1 js2 reg',
    createRoom reg genUuid gridSize js1 js2 = some (reg', r)

/-- One server event on a room.  `flip` is a FLIP_CARD message from a
connected player; `resolve` is the `setTimeout`-scheduled `checkMatch`
(such a callback only ever fires while the room is playing: it is
scheduled by an accepted second flip, and the game cannot restart without
passing through `finished` plus a rematch, which clears the pending
pair); `timerTick` is an interval tick (the interval only runs while the
room is playing); `rematch` is the REMATCH message guard plus
`startGame`. -/
inductive RStep : Room → Room → Prop where
  | join (p : Player) (r r' : Room) (ok : Bool) (out : List Out) :
      joinRoom r p = (r', ok, out) → RStep r r'
  | start (js1 js2 : Nat → Nat) (r r' : Room) (out : List Out) :
      startGame r js1 js2 = some (r', out) → RStep r r'
  | flip (p : Player) (i : Int) (r r' : Room) (out : List Out) :
      flipCardMessage r p i = (r', out) → RStep r r'
  | resolve (r r' : Room) (out : List Out) :
      r.status = Status.playing → checkMatch r = some (r', out) → RStep r r'
  | timerTick (r r' : Room) (out : List Out) :
      r.status = Status.playing → tick r = some (r', out) → RStep r r'
  | rematch (js1 js2 : Nat → Nat) (r r' : Room) (out : List Out) :
      r.status = Status.finished → r.players.length = 2 →
      startGame r js1 js2 = some (r', out) → RStep r r'
  | leave (pid : String) (r r' : Room) (out : List Out) :
      leaveRoom r pid = (some r', out) → RStep r r'

/-- Reachability: some created room, followed by any sequence of events. -/
def ReachableRoom (r : Room) : Prop :=
  ∃ r0, RoomInit r0 ∧ Relation.ReflTransGen RStep r0 r


-- ============================================
-- Deck generation lemmas
-- ============================================

theorem buildPairs_length (sel : List SymbolEntry) (i : Nat) :
    (buildPairs sel i).length = 2 * sel.length := by
  induction sel generalizing i with
  | nil => rfl
  | cons s rest ih =>
    simp only [buildPairs, List.length_cons, ih]
    omega

theorem buildPairs_map_id (sel : List SymbolEntry) (i : Nat) :
    (buildPairs sel i).map (·.id) = List.range' (2 * i) (2 * sel.length) := by
  induction sel generalizing i with
  | nil => rfl
  | cons s rest ih =>
    show (i * 2) :: (i * 2 + 1) :: (buildPairs rest (i + 1)).map (·.id) = _
    rw [ih]
    have h2 : 2 * (rest.length + 1) = (2 * rest.length + 1) + 1 := by omega
    rw [List.length_cons, h2, List.range'_succ, List.range'_succ]
    have e2 : i * 2 + 1 = 2 * i + 1 := by omega
    have e1 : i * 2 = 2 * i := by omega
    have e3 : 2 * (i + 1) = 2 * i + 1 + 1 := by omega
    rw [e2, e1, e3]

theorem buildPairs_countP (sel : List SymbolEntry) (i : Nat) (s : Nat) :
    (buildPairs sel i).countP (fun c => c.symbolId == s)
      = 2 * sel.countP (fun e => e.id == s) := by
  induction sel generalizing i with
  | nil => rfl
  | cons e rest ih =>
    show List.countP _ (mkCard (i * 2) e :: mkCard (i * 2 + 1) e :: buildPairs rest (i + 1)) = _
    rw [List.countP_cons, List.countP_cons, List.countP_cons, ih]
    by_cases h : e.id = s
    · simp only [mkCard, h, beq_self_eq_true, if_pos]
      omega
    · simp [mkCard, h]

theorem buildPairs_start_unflipped (sel : List SymbolEntry) (i : Nat) :
    ∀ c ∈ buildPairs sel i, c.isFlipped = false ∧ c.isMatched = false := by
  induction sel generalizing i with
  | nil => intro c hc; simp [buildPairs] at hc
  | cons e rest ih =>
    intro c hc
    simp only [buildPairs, List.mem_cons] at hc
    rcases hc with h | h | h
    · subst h; exact ⟨rfl, rfl⟩
    · subst h; exact ⟨rfl, rfl⟩
    · exact ih (i + 1) c h

theorem buildPairs_symbolId_mem (sel : List SymbolEntry) (i : Nat) :
    ∀ c ∈ buildPairs sel i, c.symbolId ∈ sel.map (·.id) := by
  induction sel generalizing i with
  | nil => intro c hc; simp [buildPairs] at hc
  | cons e rest ih =>
    intro c hc
    simp only [buildPairs, List.mem_cons] at hc
    rcases hc with h | h | h
    · subst h; simp [mkCard]
    · subst h; simp [mkCard]
    · simp only [List.map_cons, List.mem_cons]
      exact Or.inr (ih (i + 1) c h)

theorem GRID_CONFIGS_totalPairs (g : String) (cfg : GridConfig)
    (h : GRID_CONFIGS g = some cfg) : 0 < cfg.totalPairs ∧ cfg.totalPairs ≤ 18 := by
  unfold GRID_CONFIGS at h
  split_ifs at h <;> cases h <;> simp

theorem CARD_SYMBOLS_length : CARD_SYMBOLS.length = 18 := rfl

theorem CARD_SYMBOLS_ids_nodup : (CARD_SYMBOLS.map (·.id)).Nodup := by decide

theorem generateCards_eq (gridSize : String) (cfg : GridConfig) (js1 js2 : Nat → Nat)
    (hcfg : GRID_CONFIGS gridSize = some cfg) :
    generateCards gridSize js1 js2 =
      some (shuffleArray js2
        (buildPairs ((shuffleArray js1 CARD_SYMBOLS).take cfg.totalPairs) 0)) := by
  unfold generateCards
  rw [hcfg]

/-- Everything C7 needs about a successfully generated deck: the card
count, the per-symbol pair count, the distinct ids, and the face-down
initial state. -/
theorem generateCards_spec (gridSize : String) (cfg : GridConfig) (js1 js2 : Nat → Nat)
    (hcfg : GRID_CONFIGS gridSize = some cfg) :
    ∃ deck, generateCards gridSize js1 js2 = some deck ∧
      deck.length = 2 * cfg.totalPairs ∧
      (∀ s ∈ deck.map (·.symbolId),
        (deck.filter fun c => c.symbolId == s).length = 2) ∧
      (deck.map (·.id)).Nodup ∧
      (∀ c ∈ deck, c.isFlipped = false ∧ c.isMatched = false) := by
  have hle : cfg.totalPairs ≤ 18 := (GRID_CONFIGS_totalPairs gridSize cfg hcfg).2
  have hperm1 : (shuffleArray js1 CARD_SYMBOLS).Perm CARD_SYMBOLS :=
    shuffleArray_perm js1 CARD_SYMBOLS
  have hlen1 : ((shuffleArray js1 CARD_SYMBOLS).take cfg.totalPairs).length
      = cfg.totalPairs := by
    rw [List.length_take, hperm1.length_eq, CARD_SYMBOLS_length]
    omega
  have hselNodup : (((shuffleArray js1 CARD_SYMBOLS).take cfg.totalPairs).map (·.id)).Nodup := by
    rw [List.map_take]
    exact (List.take_sublist _ _).nodup
      ((hperm1.map (·.id)).nodup_iff.mpr CARD_SYMBOLS_ids_nodup)
  have hperm2 := shuffleArray_perm js2
    (buildPairs ((shuffleArray js1 CARD_SYMBOLS).take cfg.totalPairs) 0)
  rw [generateCards_eq gridSize cfg js1 js2 hcfg]
  refine ⟨_, rfl, ?_, ?_, ?_, ?_⟩
  · -- length
    rw [hperm2.length_eq, buildPairs_length, hlen1]
  · -- each present symbolId appears exactly twice
    intro s hs
    rw [← List.countP_eq_length_filter, hperm2.countP_eq, buildPairs_countP]
    have hmem : s ∈ ((shuffleArray js1 CARD_SYMBOLS).take cfg.totalPairs).map (·.id) := by
      rw [List.mem_map] at hs
      obtain ⟨c, hc, hcs⟩ := hs
      subst hcs
      exact buildPairs_symbolId_mem _ 0 c (hperm2.mem_iff.mp hc)
    have hcount : ((shuffleArray js1 CARD_SYMBOLS).take cfg.totalPairs).countP
        (fun e => e.id == s) = 1 := by
      have h1 : (((shuffleArray js1 CARD_SYMBOLS).take cfg.totalPairs).map (·.id)).count s = 1 :=
        List.count_eq_one_of_mem hselNodup hmem
      rw [List.count_eq_countP, List.countP_map] at h1
      simpa [Function.comp] using h1
    rw [hcount]
  · -- distinct ids
    rw [(hperm2.map (·.id)).nodup_iff, buildPairs_map_id]
    exact List.nodup_range' _ _
  · -- all cards start face down and unmatched
    intro c hc
    exact buildPairs_start_unflipped _ 0 c (hperm2.mem_iff.mp hc)

/-- `generateCards` fails exactly on an unknown grid size. -/
theorem generateCards_none_iff (gridSize : String) (js1 js2 : Nat → Nat) :
    generateCards gridSize js1 js2 = none ↔ GRID_CONFIGS gridSize = none := by
  unfold generateCards
  cases GRID_CONFIGS gridSize <;> simp

-- ============================================
-- List.set / countP helpers
-- ============================================

theorem countP_set_eq (p : Card → Bool) (l : List Card) (n : Nat) (a b : Card)
    (ha : l[n]? = some a) (hpb : p b = p a) :
    (l.set n b).countP p = l.countP p := by
  induction l generalizing n with
  | nil => simp at ha
  | cons x t ih =>
    cases n with
    | zero =>
      simp only [List.getElem?_cons_zero, Option.some.injEq] at ha
      subst ha
      simp only [List.set_cons_zero, List.countP_cons, hpb]
    | succ m =>
      simp only [List.getElem?_cons_succ] at ha
      simp only [List.set_cons_succ, List.countP_cons, ih m ha]

theorem countP_set_incr (p : Card → Bool) (l : List Card) (n : Nat) (a b : Card)
    (ha : l[n]? = some a) (hpa : p a = false) (hpb : p b = true) :
    (l.set n b).countP p = l.countP p + 1 := by
  induction l generalizing n with
  | nil => simp at ha
  | cons x t ih =>
    cases n with
    | zero =>
      simp only [List.getElem?_cons_zero, Option.some.injEq] at ha
      subst ha
      simp only [List.set_cons_zero, List.countP_cons, hpa, hpb]
      simp
    | succ m =>
      simp only [List.getElem?_cons_succ] at ha
      simp only [List.set_cons_succ, List.countP_cons, ih m ha]
      omega

-- ============================================
-- flipBackAll lemmas
-- ============================================

theorem flipBackAll_isSome (cards : List Card) (idxs : List Nat)
    (h : ∀ i ∈ idxs, i < cards.length) :
    ∃ res, flipBackAll cards idxs = some res := by
  induction idxs generalizing cards with
  | nil => exact ⟨cards, rfl⟩
  | cons i rest ih =>
    have hi : i < cards.length := h i (List.mem_cons_self i rest)
    cases hc : cards[i]? with
    | none =>
      rw [List.getElem?_eq_none_iff] at hc
      omega
    | some c =>
      unfold flipBackAll
      rw [hc]
      exact ih (cards.set i { c with isFlipped := false }) fun j hj => by
        rw [List.length_set]; exact h j (List.mem_cons_of_mem i hj)

theorem flipBackAll_length (cards res : List Card) (idxs : List Nat)
    (h : flipBackAll cards idxs = some res) : res.length = cards.length := by
  induction idxs generalizing cards with
  | nil => cases h; rfl
  | cons i rest ih =>
    unfold flipBackAll at h
    cases hc : cards[i]? with
    | none => rw [hc] at h; cases h
    | some c =>
      rw [hc] at h
      have := ih _ h
      rwa [List.length_set] at this

theorem flipBackAll_getElem? (cards res : List Card) (idxs : List Nat)
    (h : flipBackAll cards idxs = some res) :
    ∀ n, res[n]? = if n ∈ idxs
      then (cards[n]?).map (fun c => { c with isFlipped := false })
      else cards[n]? := by
  induction idxs generalizing cards with
  | nil =>
    cases h
    intro n
    simp
  | cons i rest ih =>
    unfold flipBackAll at h
    cases hc : cards[i]? with
    | none => rw [hc] at h; cases h
    | some c =>
      rw [hc] at h
      intro n
      have hrec := ih _ h n
      by_cases hn : n ∈ rest
      · rw [if_pos hn] at hrec
        rw [if_pos (List.mem_cons_of_mem i hn), hrec]
        by_cases hni : n = i
        · subst hni
          rw [List.getElem?_set_self (by exact (List.getElem?_eq_some_iff.mp hc).1), hc]
          rfl
        · rw [List.getElem?_set_ne (fun he => hni he.symm)]
      · rw [if_neg hn] at hrec
        by_cases hni : n = i
        · subst hni
          rw [if_pos (List.mem_cons_self n rest), hrec,
              List.getElem?_set_self (by exact (List.getElem?_eq_some_iff.mp hc).1), hc]
          rfl
        · rw [if_neg (by simp [hni, hn]), hrec,
              List.getElem?_set_ne (fun he => hni he.symm)]

theorem flipBackAll_countP_matched (cards res : List Card) (idxs : List Nat)
    (h : flipBackAll cards idxs = some res) :
    res.countP (fun c => c.isMatched) = cards.countP (fun c => c.isMatched) := by
  induction idxs generalizing cards with
  | nil => cases h; rfl
  | cons i rest ih =>
    unfold flipBackAll at h
    cases hc : cards[i]? with
    | none => rw [hc] at h; cases h
    | some c =>
      rw [hc] at h
      rw [ih _ h, countP_set_eq (fun c => c.isMatched) cards i c
            { c with isFlipped := false } hc rfl]

-- ============================================
-- The inductive room invariant
-- ============================================

/-- The inductive invariant maintained by every server event on a room. -/
structure RoomInv (r : Room) : Prop where
  grid : (GRID_CONFIGS r.gridSize).isSome
  cardsLen : r.cards.length = 2 * gridTotalPairs r.gridSize
  flipLe : r.flippedIndices.length ≤ 2
  flipNodup : r.flippedIndices.Nodup
  flipLt : ∀ i ∈ r.flippedIndices, i < r.cards.length
  flipSync : r.status = Status.playing → ∀ i c, r.cards[i]? = some c →
    ((c.isFlipped = true ∧ c.isMatched = false) ↔ i ∈ r.flippedIndices)
  matchedCount : r.cards.countP (fun c => c.isMatched) = 2 * r.matchedPairs
  mpLt : r.status = Status.playing → r.matchedPairs < gridTotalPairs r.gridSize
  playersLe : r.players.length ≤ 2
  playingTwo : r.status = Status.playing → r.players.length = 2
  cpiLt : r.currentPlayerIndex < 2

theorem gridTotalPairs_eq (g : String) (cfg : GridConfig)
    (hcfg : GRID_CONFIGS g = some cfg) : gridTotalPairs g = cfg.totalPairs := by
  unfold gridTotalPairs
  rw [hcfg]

theorem roomInv_init (r : Room) (h : RoomInit r) : RoomInv r := by
  obtain ⟨reg, genUuid, gridSize, js1, js2, reg', hcr⟩ := h
  unfold createRoom at hcr
  cases hgen : generateCards gridSize js1 js2 with
  | none => rw [hgen] at hcr; cases hcr
  | some deck =>
    rw [hgen] at hcr
    simp only [Option.some.injEq, Prod.mk.injEq] at hcr
    obtain ⟨-, hr⟩ := hcr
    cases hcfg : GRID_CONFIGS gridSize with
    | none =>
      rw [(generateCards_none_iff gridSize js1 js2).mpr hcfg] at hgen
      cases hgen
    | some cfg =>
      obtain ⟨deck', hdeck', hlen, htwice, hids, hfresh⟩ :=
        generateCards_spec gridSize cfg js1 js2 hcfg
      rw [hgen] at hdeck'
      cases hdeck'
      subst hr
      constructor <;> simp only []
      · rw [hcfg]; rfl
      · rw [gridTotalPairs_eq gridSize cfg hcfg]; exact hlen
      · simp
      · simp
      · intro i hi; simp at hi
      · intro hst; cases hst
      · rw [List.countP_eq_zero.mpr]
        intro c hc
        simp [(hfresh c hc).2]
      · intro hst; cases hst
      · simp
      · intro hst; cases hst
      · simp

theorem roomInv_join (r r' : Room) (p : Player) (ok : Bool) (out : List Out)
    (hinv : RoomInv r) (h : joinRoom r p = (r', ok, out)) : RoomInv r' := by
  unfold joinRoom at h
  by_cases hfull : r.players.length ≥ 2
  · rw [if_pos hfull] at h
    cases h
    exact hinv
  · rw [if_neg hfull] at h
    simp only [Prod.mk.injEq] at h
    obtain ⟨hr, -, -⟩ := h
    subst hr
    constructor <;> simp only []
    · exact hinv.grid
    · exact hinv.cardsLen
    · exact hinv.flipLe
    · exact hinv.flipNodup
    · exact hinv.flipLt
    · exact hinv.flipSync
    · exact hinv.matchedCount
    · exact hinv.mpLt
    · rw [List.length_append, List.length_singleton]; omega
    · intro hst
      exact absurd (hinv.playingTwo hst) (by omega)
    · exact hinv.cpiLt

theorem roomInv_leave (r r' : Room) (pid : String) (out : List Out)
    (hinv : RoomInv r) (h : leaveRoom r pid = (some r', out)) : RoomInv r' := by
  unfold leaveRoom at h
  by_cases hempty : (r.players.filter fun p => p.id ≠ pid).length = 0
  · rw [if_pos hempty] at h
    cases h
  · rw [if_neg hempty] at h
    simp only [Prod.mk.injEq, Option.some.injEq] at h
    obtain ⟨hr, -⟩ := h
    subst hr
    constructor <;> simp only []
    · exact hinv.grid
    · exact hinv.cardsLen
    · exact hinv.flipLe
    · exact hinv.flipNodup
    · exact hinv.flipLt
    · intro hst; cases hst
    · exact hinv.matchedCount
    · intro hst; cases hst
    · exact le_trans (List.length_filter_le _ _) hinv.playersLe
    · intro hst; cases hst
    · exact hinv.cpiLt

theorem roomInv_start (r r' : Room) (js1 js2 : Nat → Nat) (out : List Out)
    (hinv : RoomInv r) (h : startGame r js1 js2 = some (r', out)) : RoomInv r' := by
  unfold startGame at h
  by_cases hp2 : r.players.length ≠ 2
  · rw [if_pos hp2] at h
    simp only [Option.some.injEq, Prod.mk.injEq] at h
    obtain ⟨hr, -⟩ := h
    subst hr
    exact hinv
  · rw [if_neg hp2] at h
    push_neg at hp2
    cases hgen : generateCards r.gridSize js1 js2 with
    | none => rw [hgen] at h; cases h
    | some deck =>
      rw [hgen] at h
      simp only [Option.some.injEq, Prod.mk.injEq] at h
      obtain ⟨hr, -⟩ := h
      subst hr
      cases hcfg : GRID_CONFIGS r.gridSize with
      | none =>
        rw [(generateCards_none_iff r.gridSize js1 js2).mpr hcfg] at hgen
        cases hgen
      | some cfg =>
        obtain ⟨deck', hdeck', hlen, htwice, hids, hfresh⟩ :=
          generateCards_spec r.gridSize cfg js1 js2 hcfg
        rw [hgen] at hdeck'
        cases hdeck'
        constructor <;> simp only [startTurnTimerState]
        · exact hinv.grid
        · rw [gridTotalPairs_eq r.gridSize cfg hcfg]; exact hlen
        · simp
        · simp
        · intro i hi; simp at hi
        · intro hst i c hc
          have hmem : c ∈ deck := List.getElem?_mem hc
          simp [(hfresh c hmem).1]
        · rw [List.countP_eq_zero.mpr]
          intro c hc
          simp [(hfresh c hc).2]
        · intro hst
          rw [gridTotalPairs_eq r.gridSize cfg hcfg]
          exact (GRID_CONFIGS_totalPairs r.gridSize cfg hcfg).1
        · rw [List.length_map]; omega
        · intro hst
          rw [List.length_map]; exact hp2
        · simp

/-- State-level characterisation of `handleFlipCard`: either the attempt
is rejected and the room is untouched, or the accepting branch ran. -/
theorem handleFlipCard_state (room : Room) (player : Player) (cardIndex : Int) :
    (handleFlipCard room player cardIndex).1 = room ∨
    ∃ ci card, ci = cardIndex.toNat ∧ room.cards[ci]? = some card ∧
      card.isFlipped = false ∧ card.isMatched = false ∧
      room.flippedIndices.length < 2 ∧
      (handleFlipCard room player cardIndex).1 =
        { room with cards := room.cards.set ci { card with isFlipped := true },
                    flippedIndices := room.flippedIndices ++ [ci] } := by
  unfold handleFlipCard
  split
  · exact Or.inl rfl
  · split
    · exact Or.inl rfl
    · split
      · exact Or.inl rfl
      · rename_i card hcard
        split
        · exact Or.inl rfl
        · split
          · exact Or.inl rfl
          · rename_i hflip hpend
            refine Or.inr ⟨cardIndex.toNat, card, rfl, hcard, ?_, ?_, by omega, rfl⟩
            · cases hf : card.isFlipped
              · rfl
              · exact absurd (Or.inl hf) hflip
            · cases hm : card.isMatched
              · rfl
              · exact absurd (Or.inr hm) hflip

theorem roomInv_flip (r r' : Room) (p : Player) (i : Int) (out : List Out)
    (hinv : RoomInv r) (h : flipCardMessage r p i = (r', out)) : RoomInv r' := by
  unfold flipCardMessage at h
  by_cases hst : r.status ≠ Status.playing
  · rw [if_pos hst] at h
    cases h
    exact hinv
  · rw [if_neg hst] at h
    push_neg at hst
    rcases handleFlipCard_state r p i with hcase | ⟨ci, card, hci, hcard, hnf, hnm, hlt, hcase⟩
    · have : r' = r := by rw [← hcase, h]
      subst this
      exact hinv
    · have hr' : r' = { r with cards := r.cards.set ci { card with isFlipped := true },
                               flippedIndices := r.flippedIndices ++ [ci] } := by
        rw [← hcase, h]
      have hcilt : ci < r.cards.length := (List.getElem?_eq_some_iff.mp hcard).1
      have hnotmem : ci ∉ r.flippedIndices := by
        intro hmem
        have := (hinv.flipSync hst ci card hcard).mpr hmem
        rw [hnf] at this
        exact absurd this.1 (by simp)
      subst hr'
      constructor <;> simp only []
      · exact hinv.grid
      · rw [List.length_set]; exact hinv.cardsLen
      · rw [List.length_append, List.length_singleton]; omega
      · rw [(List.perm_append_singleton ci r.flippedIndices).nodup_iff, List.nodup_cons]
        exact ⟨hnotmem, hinv.flipNodup⟩
      · intro j hj
        rw [List.length_set]
        rcases List.mem_append.mp hj with hj | hj
        · exact hinv.flipLt j hj
        · rw [List.mem_singleton] at hj
          subst hj
          exact hcilt
      · intro hst' j c hc
        by_cases hji : j = ci
        · subst hji
          rw [List.getElem?_set_self hcilt] at hc
          cases hc
          simp [hnm]
        · rw [List.getElem?_set_ne (fun he => hji he.symm)] at hc
          rw [hinv.flipSync hst j c hc]
          simp [hji]
      · rw [countP_set_eq (fun c => c.isMatched) r.cards ci card
              { card with isFlipped := true } hcard rfl]
        exact hinv.matchedCount
      · intro hst'
        exact hinv.mpLt hst
      · exact hinv.playersLe
      · intro hst'
        exact hinv.playingTwo hst
      · exact hinv.cpiLt

-- ============================================
-- checkMatch / endGame characterisation
-- ============================================

theorem checkMatch_mismatch (r : Room) (i j : Nat) (rest : List Nat) (c1 c2 : Card)
    (hfi : r.flippedIndices = i :: j :: rest)
    (hci : r.cards[i]? = some c1) (hcj : r.cards[j]? = some c2)
    (hne : ¬c1.symbolId = c2.symbolId) :
    checkMatch r = some
      ({ r with cards := (r.cards.set i { c1 with isFlipped := false }).set j
                           { c2 with isFlipped := false },
                currentPlayerIndex := (r.currentPlayerIndex + 1) % 2,
                flippedIndices := [],
                turnTimeLeft := TURN_TIME_LIMIT },
       [Out.bcast (Msg.MATCH_RESULT false [i, j] none none none none),
        Out.bcast (Msg.TURN_CHANGED ((r.currentPlayerIndex + 1) % 2)
          (getPublicRoomState
            { r with cards := (r.cards.set i { c1 with isFlipped := false }).set j
                                { c2 with isFlipped := false },
                     currentPlayerIndex := (r.currentPlayerIndex + 1) % 2,
                     flippedIndices := [] }))]) := by
  simp only [checkMatch, hfi, hci, hcj, if_neg hne, startTurnTimerState]

theorem checkMatch_match_continue (r : Room) (i j : Nat) (rest : List Nat) (c1 c2 : Card)
    (cur : Player) (cfg : GridConfig)
    (hfi : r.flippedIndices = i :: j :: rest)
    (hci : r.cards[i]? = some c1) (hcj : r.cards[j]? = some c2)
    (heq : c1.symbolId = c2.symbolId)
    (hcur : r.players[r.currentPlayerIndex]? = some cur)
    (hcfg : GRID_CONFIGS r.gridSize = some cfg)
    (hmp : ¬r.matchedPairs + 1 = cfg.totalPairs) :
    checkMatch r = some
      ({ r with cards := (r.cards.set i { c1 with isMatched := true }).set j
                           { c2 with isMatched := true },
                players := r.players.set r.currentPlayerIndex
                             { cur with score := cur.score + 1 },
                matchedPairs := r.matchedPairs + 1,
                flippedIndices := [],
                turnTimeLeft := TURN_TIME_LIMIT },
       [Out.bcast (Msg.MATCH_RESULT true [i, j] (some cur.id) (some (cur.score + 1))
          (some (r.matchedPairs + 1)) (some cfg.totalPairs))]) := by
  simp only [checkMatch, hfi, hci, hcj, if_pos heq, hcur, hcfg, if_neg hmp,
    startTurnTimerState]

theorem checkMatch_match_end (r : Room) (i j : Nat) (rest : List Nat) (c1 c2 : Card)
    (cur q0 q1 : Player) (cfg : GridConfig)
    (hfi : r.flippedIndices = i :: j :: rest)
    (hci : r.cards[i]? = some c1) (hcj : r.cards[j]? = some c2)
    (heq : c1.symbolId = c2.symbolId)
    (hcur : r.players[r.currentPlayerIndex]? = some cur)
    (hcfg : GRID_CONFIGS r.gridSize = some cfg)
    (hmp : r.matchedPairs + 1 = cfg.totalPairs)
    (hq0 : (r.players.set r.currentPlayerIndex
             { cur with score := cur.score + 1 })[0]? = some q0)
    (hq1 : (r.players.set r.currentPlayerIndex
             { cur with score := cur.score + 1 })[1]? = some q1) :
    checkMatch r = some
      ({ r with cards := (r.cards.set i { c1 with isMatched := true }).set j
                           { c2 with isMatched := true },
                players := r.players.set r.currentPlayerIndex
                             { cur with score := cur.score + 1 },
                matchedPairs := r.matchedPairs + 1,
                status := Status.finished },
       [Out.bcast (Msg.MATCH_RESULT true [i, j] (some cur.id) (some (cur.score + 1))
          (some (r.matchedPairs + 1)) (some cfg.totalPairs)),
        Out.bcast (Msg.GAME_ENDED
          (if q1.score < q0.score then some q0.id
           else if q0.score < q1.score then some q1.id else none)
          (if q1.score < q0.score then false
           else if q0.score < q1.score then false else true)
          [(q0.id, q0.score), (q1.id, q1.score)]
          (getPublicRoomState
            { r with cards := (r.cards.set i { c1 with isMatched := true }).set j
                                { c2 with isMatched := true },
                     players := r.players.set r.currentPlayerIndex
                                  { cur with score := cur.score + 1 },
                     matchedPairs := r.matchedPairs + 1,
                     status := Status.finished }))]) := by
  simp only [checkMatch, hfi, hci, hcj, if_pos heq, hcur, hcfg, if_pos hmp, endGame, hq0, hq1]
  by_cases h1 : q1.score < q0.score
  · simp only [if_pos h1]
  · simp only [if_neg h1]
    by_cases h2 : q0.score < q1.score
    · simp only [if_pos h2]
    · simp only [if_neg h2]

theorem endGame_spec (r : Room) (p1 p2 : Player) (hp : r.players = [p1, p2]) :
    endGame r = some ({ r with status := Status.finished },
      [Out.bcast (Msg.GAME_ENDED
        (if p2.score < p1.score then some p1.id
         else if p1.score < p2.score then some p2.id else none)
        (if p2.score < p1.score then false
         else if p1.score < p2.score then false else true)
        [(p1.id, p1.score), (p2.id, p2.score)]
        (getPublicRoomState { r with status := Status.finished }))]) := by
  simp only [endGame, hp, List.getElem?_cons_zero, List.getElem?_cons_succ]
  by_cases h1 : p2.score < p1.score
  · simp only [if_pos h1]
  · simp only [if_neg h1]
    by_cases h2 : p1.score < p2.score
    · simp only [if_pos h2]
    · simp only [if_neg h2]

theorem roomInv_resolve (r r' : Room) (out : List Out)
    (hinv : RoomInv r) (hst : r.status = Status.playing)
    (h : checkMatch r = some (r', out)) : RoomInv r' := by
  cases hfi : r.flippedIndices with
  | nil =>
    simp only [checkMatch, hfi] at h
    exact Option.noConfusion h
  | cons i tail =>
    cases tail with
    | nil =>
      simp only [checkMatch, hfi] at h
      exact Option.noConfusion h
    | cons j rest =>
      have hrest : rest = [] := by
        have hlen := hinv.flipLe
        rw [hfi] at hlen
        simp only [List.length_cons] at hlen
        exact List.eq_nil_of_length_eq_zero (by omega)
      subst hrest
      have hij : i ≠ j := by
        have hnd := hinv.flipNodup
        rw [hfi, List.nodup_cons] at hnd
        intro he
        exact hnd.1 (by simp [he])
      have hilt : i < r.cards.length :=
        hinv.flipLt i (by rw [hfi]; exact List.mem_cons_self i [j])
      have hjlt : j < r.cards.length :=
        hinv.flipLt j (by rw [hfi]; simp)
      cases hci : r.cards[i]? with
      | none => rw [List.getElem?_eq_none_iff] at hci; omega
      | some c1 =>
      cases hcj : r.cards[j]? with
      | none => rw [List.getElem?_eq_none_iff] at hcj; omega
      | some c2 =>
      have hc1 : c1.isFlipped = true ∧ c1.isMatched = false :=
        (hinv.flipSync hst i c1 hci).mpr (by rw [hfi]; exact List.mem_cons_self i [j])
      have hc2 : c2.isFlipped = true ∧ c2.isMatched = false :=
        (hinv.flipSync hst j c2 hcj).mpr (by rw [hfi]; simp)
      have hplen : r.players.length = 2 := hinv.playingTwo hst
      cases hcur : r.players[r.currentPlayerIndex]? with
      | none =>
        rw [List.getElem?_eq_none_iff] at hcur
        have := hinv.cpiLt
        omega
      | some cur =>
      cases hcfg : GRID_CONFIGS r.gridSize with
      | none =>
        have hg := hinv.grid
        rw [hcfg] at hg
        simp at hg
      | some cfg =>
      have htp : gridTotalPairs r.gridSize = cfg.totalPairs :=
        gridTotalPairs_eq r.gridSize cfg hcfg
      -- the two pending cards sit at distinct in-bounds indices
      have hsetj : (r.cards.set i { c1 with isMatched := true })[j]? = some c2 := by
        rw [List.getElem?_set_ne hij]
        exact hcj
      have hcount2 : ((r.cards.set i { c1 with isMatched := true }).set j
          { c2 with isMatched := true }).countP (fun c => c.isMatched)
          = 2 * (r.matchedPairs + 1) := by
        rw [countP_set_incr (fun c => c.isMatched) _ j c2 { c2 with isMatched := true }
              hsetj (by simp [hc2.2]) (by simp),
            countP_set_incr (fun c => c.isMatched) _ i c1 { c1 with isMatched := true }
              hci (by simp [hc1.2]) (by simp),
            hinv.matchedCount]
        omega
      by_cases heq : c1.symbolId = c2.symbolId
      · by_cases hmp : r.matchedPairs + 1 = cfg.totalPairs
        · -- match that ends the game
          have hq0 : ∃ q0, (r.players.set r.currentPlayerIndex
              { cur with score := cur.score + 1 })[0]? = some q0 := by
            cases hg : (r.players.set r.currentPlayerIndex
                { cur with score := cur.score + 1 })[0]? with
            | none =>
              rw [List.getElem?_eq_none_iff, List.length_set] at hg
              omega
            | some q => exact ⟨q, rfl⟩
          have hq1 : ∃ q1, (r.players.set r.currentPlayerIndex
              { cur with score := cur.score + 1 })[1]? = some q1 := by
            cases hg : (r.players.set r.currentPlayerIndex
                { cur with score := cur.score + 1 })[1]? with
            | none =>
              rw [List.getElem?_eq_none_iff, List.length_set] at hg
              omega
            | some q => exact ⟨q, rfl⟩
          obtain ⟨q0, hq0⟩ := hq0
          obtain ⟨q1, hq1⟩ := hq1
          rw [checkMatch_match_end r i j [] c1 c2 cur q0 q1 cfg hfi hci hcj heq hcur hcfg
                hmp hq0 hq1] at h
          simp only [Option.some.injEq, Prod.mk.injEq] at h
          obtain ⟨hr, -⟩ := h
          subst hr
          constructor <;> simp only []
          · exact hinv.grid
          · rw [List.length_set, List.length_set]; exact hinv.cardsLen
          · rw [hfi]; simp
          · rw [hfi]
            simp [List.nodup_cons, hij]
          · intro k hk
            rw [List.length_set, List.length_set]
            exact hinv.flipLt k hk
          · intro hst'; cases hst'
          · exact hcount2
          · intro hst'; cases hst'
          · rw [List.length_set]; exact hinv.playersLe
          · intro hst'; cases hst'
          · exact hinv.cpiLt
        · -- match, game continues
          rw [checkMatch_match_continue r i j [] c1 c2 cur cfg hfi hci hcj heq hcur hcfg
                hmp] at h
          simp only [Option.some.injEq, Prod.mk.injEq] at h
          obtain ⟨hr, -⟩ := h
          subst hr
          constructor <;> simp only []
          · exact hinv.grid
          · rw [List.length_set, List.length_set]; exact hinv.cardsLen
          · simp
          · simp
          · intro k hk; simp at hk
          · intro hst' k c hc
            simp only [List.mem_nil_iff, iff_false]
            by_cases hkj : k = j
            · subst hkj
              rw [List.getElem?_set_self (by rw [List.length_set]; exact hjlt)] at hc
              cases hc
              simp
            · rw [List.getElem?_set_ne (fun he => hkj he.symm)] at hc
              by_cases hki : k = i
              · subst hki
                rw [List.getElem?_set_self hilt] at hc
                cases hc
                simp
              · rw [List.getElem?_set_ne (fun he => hki he.symm)] at hc
                intro hcontra
                have := (hinv.flipSync hst k c hc).mp hcontra
                rw [hfi] at this
                simp at this
                rcases this with h | h
                · exact hki h
                · exact hkj h
          · exact hcount2
          · intro hst'
            rw [htp]
            have hle : 2 * (r.matchedPairs + 1) ≤ 2 * cfg.totalPairs := by
              calc 2 * (r.matchedPairs + 1)
                  = ((r.cards.set i { c1 with isMatched := true }).set j
                      { c2 with isMatched := true }).countP (fun c => c.isMatched) :=
                    hcount2.symm
                _ ≤ ((r.cards.set i { c1 with isMatched := true }).set j
                      { c2 with isMatched := true }).length := List.countP_le_length _
                _ = 2 * cfg.totalPairs := by
                    rw [List.length_set, List.length_set, hinv.cardsLen, htp]
            omega
          · rw [List.length_set]; exact hinv.playersLe
          · intro hst'
            rw [List.length_set]; exact hplen
          · exact hinv.cpiLt
      · -- mismatch
        rw [checkMatch_mismatch r i j [] c1 c2 hfi hci hcj heq] at h
        simp only [Option.some.injEq, Prod.mk.injEq] at h
        obtain ⟨hr, -⟩ := h
        subst hr
        constructor <;> simp only []
        · exact hinv.grid
        · rw [List.length_set, List.length_set]; exact hinv.cardsLen
        · simp
        · simp
        · intro k hk; simp at hk
        · intro hst' k c hc
          simp only [List.mem_nil_iff, iff_false]
          by_cases hkj : k = j
          · subst hkj
            rw [List.getElem?_set_self (by rw [List.length_set]; exact hjlt)] at hc
            cases hc
            simp
          · rw [List.getElem?_set_ne (fun he => hkj he.symm)] at hc
            by_cases hki : k = i
            · subst hki
              rw [List.getElem?_set_self hilt] at hc
              cases hc
              simp
            · rw [List.getElem?_set_ne (fun he => hki he.symm)] at hc
              intro hcontra
              have := (hinv.flipSync hst k c hc).mp hcontra
              rw [hfi] at this
              simp at this
              rcases this with h | h
              · exact hki h
              · exact hkj h
        · rw [countP_set_eq (fun c => c.isMatched) _ j c2 { c2 with isFlipped := false }
                (by rw [List.getElem?_set_ne hij]; exact hcj) rfl,
              countP_set_eq (fun c => c.isMatched) _ i c1 { c1 with isFlipped := false }
                hci rfl]
          exact hinv.matchedCount
        · intro hst'
          exact hinv.mpLt hst
        · exact hinv.playersLe
        · intro hst'
          exact hplen
        · exact Nat.mod_lt _ (by omega)

theorem roomInv_timeUp (r r' : Room) (out : List Out)
    (hinv : RoomInv r) (hst : r.status = Status.playing)
    (h : handleTimeUp r = some (r', out)) : RoomInv r' := by
  unfold handleTimeUp at h
  cases hfb : flipBackAll r.cards r.flippedIndices with
  | none => rw [hfb] at h; cases h
  | some res =>
    rw [hfb] at h
    simp only [Option.some.injEq, Prod.mk.injEq, startTurnTimerState] at h
    obtain ⟨hr, -⟩ := h
    subst hr
    constructor <;> simp only []
    · exact hinv.grid
    · rw [flipBackAll_length r.cards res r.flippedIndices hfb]; exact hinv.cardsLen
    · simp
    · simp
    · intro k hk; simp at hk
    · intro hst' k c hc
      simp only [List.mem_nil_iff, iff_false]
      have hget := flipBackAll_getElem? r.cards res r.flippedIndices hfb k
      by_cases hk : k ∈ r.flippedIndices
      · rw [if_pos hk] at hget
        rw [hget] at hc
        cases hck : r.cards[k]? with
        | none => rw [hck] at hc; cases hc
        | some c0 =>
          rw [hck, Option.map_some'] at hc
          cases hc
          simp
      · rw [if_neg hk] at hget
        rw [hget] at hc
        intro hcontra
        exact hk ((hinv.flipSync hst k c hc).mp hcontra)
    · rw [flipBackAll_countP_matched r.cards res r.flippedIndices hfb]
      exact hinv.matchedCount
    · intro hst'
      exact hinv.mpLt hst
    · exact hinv.playersLe
    · intro hst'
      exact hinv.playingTwo hst
    · exact Nat.mod_lt _ (by omega)

theorem roomInv_tick (r r' : Room) (out : List Out)
    (hinv : RoomInv r) (hst : r.status = Status.playing)
    (h : tick r = some (r', out)) : RoomInv r' := by
  unfold tick at h
  by_cases hz : r.turnTimeLeft - 1 = 0
  · rw [if_pos hz] at h
    have hinv1 : RoomInv { r with turnTimeLeft := r.turnTimeLeft - 1 } := by
      obtain ⟨g, cl, fl, fn, flt, fs, mc, ml, pl, pt, cp⟩ := hinv
      exact ⟨g, cl, fl, fn, flt, fs, mc, ml, pl, pt, cp⟩
    exact roomInv_timeUp _ r' out hinv1 hst h
  · rw [if_neg hz] at h
    have hr : r' = { r with turnTimeLeft := r.turnTimeLeft - 1 } := by
      by_cases hw : r.turnTimeLeft - 1 ≤ 10
      · rw [if_pos hw] at h
        simp only [Option.some.injEq, Prod.mk.injEq] at h
        exact h.1.symm
      · rw [if_neg hw] at h
        simp only [Option.some.injEq, Prod.mk.injEq] at h
        exact h.1.symm
    subst hr
    obtain ⟨g, cl, fl, fn, flt, fs, mc, ml, pl, pt, cp⟩ := hinv
    exact ⟨g, cl, fl, fn, flt, fs, mc, ml, pl, pt, cp⟩

theorem roomInv_step (r r' : Room) (hinv : RoomInv r) (h : RStep r r') : RoomInv r' := by
  cases h with
  | join p r r' ok out hop => exact roomInv_join r r' p ok out hinv hop
  | start js1 js2 r r' out hop => exact roomInv_start r r' js1 js2 out hinv hop
  | flip p i r r' out hop => exact roomInv_flip r r' p i out hinv hop
  | resolve r r' out hst hop => exact roomInv_resolve r r' out hinv hst hop
  | timerTick r r' out hst hop => exact roomInv_tick r r' out hinv hst hop
  | rematch js1 js2 r r' out hst hp hop => exact roomInv_start r r' js1 js2 out hinv hop
  | leave pid r r' out hop => exact roomInv_leave r r' pid out hinv hop

theorem roomInv_reachable (r : Room) (h : ReachableRoom r) : RoomInv r := by
  obtain ⟨r0, hinit, hsteps⟩ := h
  induction hsteps with
  | refl => exact roomInv_init r0 hinit
  | tail _ hstep ih => exact roomInv_step _ _ ih hstep

-- ============================================
-- Per-operation field lemmas
-- ============================================

theorem joinRoom_fields (r : Room) (p : Player) :
    (joinRoom r p).1.status = r.status ∧
    (joinRoom r p).1.matchedPairs = r.matchedPairs ∧
    (joinRoom r p).1.gridSize = r.gridSize := by
  unfold joinRoom
  split <;> exact ⟨rfl, rfl, rfl⟩

theorem startGame_fields (r r' : Room) (js1 js2 : Nat → Nat) (out : List Out)
    (h : startGame r js1 js2 = some (r', out)) :
    r' = r ∨ (r'.status = Status.playing ∧ r'.matchedPairs = 0) := by
  unfold startGame at h
  split at h
  · simp only [Option.some.injEq, Prod.mk.injEq] at h
    exact Or.inl h.1.symm
  · split at h
    · cases h
    · simp only [Option.some.injEq, Prod.mk.injEq] at h
      right
      rw [← h.1]
      exact ⟨rfl, rfl⟩

theorem flipCardMessage_fields (r : Room) (p : Player) (ci : Int) :
    (flipCardMessage r p ci).1.status = r.status ∧
    (flipCardMessage r p ci).1.matchedPairs = r.matchedPairs ∧
    (flipCardMessage r p ci).1.gridSize = r.gridSize := by
  unfold flipCardMessage
  split
  · exact ⟨rfl, rfl, rfl⟩
  · rcases handleFlipCard_state r p ci with hc | ⟨ci', card, -, -, -, -, -, hc⟩ <;>
      rw [hc] <;> exact ⟨rfl, rfl, rfl⟩

/-- Without any invariant: a successful `endGame` only sets `status` to
finished (all other fields of the returned room are the input's). -/
theorem endGame_general (room r2 : Room) (out2 : List Out)
    (h : endGame room = some (r2, out2)) :
    r2 = { room with status := Status.finished } := by
  unfold endGame at h
  simp only [] at h
  split at h
  · simp only [Option.some.injEq, Prod.mk.injEq] at h
    exact h.1.symm
  · cases h

/-- Without any invariant: `checkMatch` either leaves `status` and
`matchedPairs` alone, or bumps `matchedPairs` and either keeps the status
or sets it to finished; `gridSize` never changes. -/
theorem checkMatch_general (r r' : Room) (out : List Out)
    (h : checkMatch r = some (r', out)) :
    r'.gridSize = r.gridSize ∧
    ((r'.status = r.status ∧ r'.matchedPairs = r.matchedPairs) ∨
     (r'.matchedPairs = r.matchedPairs + 1 ∧
       (r'.status = r.status ∨ r'.status = Status.finished))) := by
  unfold checkMatch at h
  split at h
  · split at h
    · split at h
      · split at h
        · simp only [] at h
          split at h
          · split at h
            · rename_i r2 out2 heq
              simp only [Option.some.injEq, Prod.mk.injEq] at h
              have hr2 := endGame_general _ _ _ heq
              rw [← h.1, hr2]
              exact ⟨rfl, Or.inr ⟨rfl, Or.inr rfl⟩⟩
            · cases h
          · simp only [Option.some.injEq, Prod.mk.injEq, startTurnTimerState] at h
            rw [← h.1]
            exact ⟨rfl, Or.inr ⟨rfl, Or.inl rfl⟩⟩
        · cases h
      · simp only [Option.some.injEq, Prod.mk.injEq, startTurnTimerState] at h
        rw [← h.1]
        exact ⟨rfl, Or.inl ⟨rfl, rfl⟩⟩
    · cases h
  · cases h

theorem handleTimeUp_fields (r r' : Room) (out : List Out)
    (h : handleTimeUp r = some (r', out)) :
    r'.status = r.status ∧ r'.matchedPairs = r.matchedPairs ∧
    r'.gridSize = r.gridSize := by
  unfold handleTimeUp at h
  split at h
  · cases h
  · simp only [Option.some.injEq, Prod.mk.injEq, startTurnTimerState] at h
    rw [← h.1]
    exact ⟨rfl, rfl, rfl⟩

theorem tick_fields (r r' : Room) (out : List Out)
    (h : tick r = some (r', out)) :
    r'.status = r.status ∧ r'.matchedPairs = r.matchedPairs ∧
    r'.gridSize = r.gridSize := by
  unfold tick at h
  simp only [] at h
  split at h
  · exact handleTimeUp_fields { r with turnTimeLeft := r.turnTimeLeft - 1 } r' out h
  · split at h <;>
    · simp only [Option.some.injEq, Prod.mk.injEq] at h
      rw [← h.1]
      exact ⟨rfl, rfl, rfl⟩

theorem leaveRoom_fields (r r' : Room) (pid : String) (out : List Out)
    (h : leaveRoom r pid = (some r', out)) :
    r'.status = Status.waiting ∧ r'.matchedPairs = r.matchedPairs ∧
    r'.gridSize = r.gridSize := by
  unfold leaveRoom at h
  simp only [] at h
  split at h
  · exact Option.noConfusion (congrArg Prod.fst h)
  · simp only [Prod.mk.injEq, Option.some.injEq] at h
    rw [← h.1]
    exact ⟨rfl, rfl, rfl⟩

/-- Under the room invariant, a scheduled match resolution in a playing
room ends in exactly one of three ways: game over (pair count reaches the
total), successful match with the game continuing, or a mismatch. -/
theorem checkMatch_outcome (r r' : Room) (out : List Out)
    (hinv : RoomInv r) (hst : r.status = Status.playing)
    (h : checkMatch r = some (r', out)) :
    r'.gridSize = r.gridSize ∧
    ((r'.status = Status.finished ∧ r'.matchedPairs = r.matchedPairs + 1 ∧
        r'.matchedPairs = gridTotalPairs r.gridSize) ∨
     (r'.status = Status.playing ∧ r'.matchedPairs = r.matchedPairs + 1 ∧
        r'.matchedPairs < gridTotalPairs r.gridSize) ∨
     (r'.status = Status.playing ∧ r'.matchedPairs = r.matchedPairs)) := by
  have hinv' := roomInv_resolve r r' out hinv hst h
  obtain ⟨hgs, hrest⟩ := checkMatch_general r r' out h
  refine ⟨hgs, ?_⟩
  rcases hrest with ⟨hs, hm⟩ | ⟨hm, hs | hs⟩
  · exact Or.inr (Or.inr ⟨hs.trans hst, hm⟩)
  · -- matchedPairs went up and status is unchanged, i.e. still playing
    refine Or.inr (Or.inl ⟨hs.trans hst, hm, ?_⟩)
    have := hinv'.mpLt (hs.trans hst)
    rw [hgs] at this
    exact this
  · -- matchedPairs went up and the game finished
    refine Or.inl ⟨hs, hm, ?_⟩
    -- matchedPairs ≤ totalPairs from the card count, and it cannot be
    -- below it: the finished branch is taken exactly at equality
    have hle : r'.matchedPairs ≤ gridTotalPairs r.gridSize := by
      have hc := hinv'.matchedCount
      have hlen := hinv'.cardsLen
      have := List.countP_le_length (fun c => c.isMatched) (l := r'.cards)
      rw [hc, hlen, hgs] at this
      omega
    -- re-run the branch analysis to see that finish implies equality
    cases hfi : r.flippedIndices with
    | nil =>
      simp only [checkMatch, hfi] at h
      exact Option.noConfusion h
    | cons i tail =>
      cases tail with
      | nil =>
        simp only [checkMatch, hfi] at h
        exact Option.noConfusion h
      | cons j rest =>
        cases hci : r.cards[i]? with
        | none => simp only [checkMatch, hfi, hci] at h; exact Option.noConfusion h
        | some c1 =>
        cases hcj : r.cards[j]? with
        | none => simp only [checkMatch, hfi, hci, hcj] at h; exact Option.noConfusion h
        | some c2 =>
        by_cases heq : c1.symbolId = c2.symbolId
        · cases hcur : r.players[r.currentPlayerIndex]? with
          | none =>
            simp only [checkMatch, hfi, hci, hcj, if_pos heq, hcur] at h
            exact Option.noConfusion h
          | some cur =>
          cases hcfg : GRID_CONFIGS r.gridSize with
          | none =>
            simp only [checkMatch, hfi, hci, hcj, if_pos heq, hcur, hcfg] at h
            exact Option.noConfusion h
          | some cfg =>
          by_cases hmp : r.matchedPairs + 1 = cfg.totalPairs
          · rw [hm, hmp, gridTotalPairs_eq r.gridSize cfg hcfg]
          · simp only [checkMatch, hfi, hci, hcj, if_pos heq, hcur, hcfg, if_neg hmp,
              startTurnTimerState] at h
            simp only [Option.some.injEq, Prod.mk.injEq] at h
            obtain ⟨hr, -⟩ := h
            rw [← hr] at hs
            rw [hst] at hs
            exact absurd hs (by simp)
        · rw [checkMatch_mismatch r i j rest c1 c2 hfi hci hcj heq] at h
          simp only [Option.some.injEq, Prod.mk.injEq] at h
          obtain ⟨hr, -⟩ := h
          rw [← hr] at hs
          rw [hst] at hs
          exact absurd hs (by simp)

-- ============================================
-- find? / mapSet lemmas (matchmaking)
-- ============================================

theorem find?_first {α : Type} (p : α → Bool) (l : List α) (a : α)
    (h : l.find? p = some a) :
    ∃ pre post, l = pre ++ a :: post ∧ p a = true ∧ ∀ x ∈ pre, p x = false := by
  induction l with
  | nil => cases h
  | cons x t ih =>
    rw [List.find?_cons] at h
    cases hx : p x with
    | true =>
      simp only [hx] at h
      cases h
      exact ⟨[], t, rfl, hx, by intro y hy; cases hy⟩
    | false =>
      simp only [hx] at h
      obtain ⟨pre, post, hl, hpa, hpre⟩ := ih h
      refine ⟨x :: pre, post, by rw [hl]; rfl, hpa, ?_⟩
      intro y hy
      rcases List.mem_cons.mp hy with hy | hy
      · subst hy
        exact hx
      · exact hpre y hy

theorem mapSet_nodup_keys (reg : Registry) (k : String) (v : Room)
    (h : (reg.map (·.1)).Nodup) : ((mapSet reg k v).map (·.1)).Nodup := by
  unfold mapSet
  split
  · -- in-place update: the key list is unchanged up to replacing k by k
    have : (reg.map fun kr => if kr.1 == k then (k, v) else kr).map (·.1)
        = reg.map (·.1) := by
      rw [List.map_map]
      apply List.map_congr_left
      intro kr _
      by_cases hk : kr.1 == k
      · simp only [Function.comp, hk, if_pos]
        exact (eq_of_beq hk).symm
      · simp only [Function.comp, hk, if_neg]
        rfl
    rw [this]
    exact h
  · rename_i hnone
    rw [List.map_append]
    simp only [List.map_cons, List.map_nil]
    rw [List.nodup_append]
    refine ⟨h, List.nodup_singleton k, ?_⟩
    intro x hx
    simp only [List.mem_singleton]
    intro he
    subst he
    rw [List.mem_map] at hx
    obtain ⟨kr, hkr, hk⟩ := hx
    exact hnone (List.any_eq_true.mpr ⟨kr, hkr, by rw [hk]; simp⟩)

theorem mapSet_replace (reg : Registry) (k : String) (v : Room)
    (h : reg.any (fun kr => kr.1 == k)) :
    (mapSet reg k v).length = reg.length ∧ (k, v) ∈ mapSet reg k v := by
  unfold mapSet
  rw [if_pos h]
  constructor
  · rw [List.length_map]
  · rw [List.any_eq_true] at h
    obtain ⟨kr, hkr, hk⟩ := h
    rw [List.mem_map]
    exact ⟨kr, hkr, by rw [if_pos hk]⟩

-- ============================================
-- Score bookkeeping (C10)
-- ============================================

/-- Sum of all player scores in a room. -/
def scoreSum (r : Room) : Nat := (r.players.map (·.score)).sum

theorem scoreSum_set_incr (l : List Player) (n : Nat) (cur : Player)
    (h : l[n]? = some cur) :
    ((l.set n { cur with score := cur.score + 1 }).map (·.score)).sum
      = (l.map (·.score)).sum + 1 := by
  induction l generalizing n with
  | nil => cases h
  | cons x t ih =>
    cases n with
    | zero =>
      simp only [List.getElem?_cons_zero, Option.some.injEq] at h
      subst h
      simp only [List.set_cons_zero, List.map_cons, List.sum_cons]
      omega
    | succ m =>
      simp only [List.getElem?_cons_succ] at h
      simp only [List.set_cons_succ, List.map_cons, List.sum_cons, ih m h]
      omega

/-- The in-game events of C10: flips, scheduled match resolutions and
timer ticks — no join, leave, start or rematch. -/
inductive GameStep : Room → Room → Prop where
  | flip (p : Player) (i : Int) (r r' : Room) (out : List Out) :
      flipCardMessage r p i = (r', out) → GameStep r r'
  | resolve (r r' : Room) (out : List Out) :
      r.status = Status.playing → checkMatch r = some (r', out) → GameStep r r'
  | timerTick (r r' : Room) (out : List Out) :
      r.status = Status.playing → tick r = some (r', out) → GameStep r r'

theorem scoreSum_gameStep (r r' : Room) (h : GameStep r r')
    (hsum : r.matchedPairs = scoreSum r) : r'.matchedPairs = scoreSum r' := by
  cases h with
  | flip p i r r' out hop =>
    unfold flipCardMessage at hop
    split at hop
    · cases hop
      exact hsum
    · have hr' : r' = (handleFlipCard r p i).1 := by rw [hop]
      rcases handleFlipCard_state r p i with hc | ⟨ci, card, -, -, -, -, -, hc⟩ <;>
        rw [hr', hc] <;> exact hsum
  | resolve r r' out hst hop =>
    cases hfi : r.flippedIndices with
    | nil =>
      simp only [checkMatch, hfi] at hop
      exact Option.noConfusion hop
    | cons i tail =>
      cases tail with
      | nil =>
        simp only [checkMatch, hfi] at hop
        exact Option.noConfusion hop
      | cons j rest =>
        cases hci : r.cards[i]? with
        | none =>
          simp only [checkMatch, hfi, hci] at hop
          exact Option.noConfusion hop
        | some c1 =>
        cases hcj : r.cards[j]? with
        | none =>
          simp only [checkMatch, hfi, hci, hcj] at hop
          exact Option.noConfusion hop
        | some c2 =>
        by_cases heq : c1.symbolId = c2.symbolId
        · cases hcur : r.players[r.currentPlayerIndex]? with
          | none =>
            simp only [checkMatch, hfi, hci, hcj, if_pos heq, hcur] at hop
            exact Option.noConfusion hop
          | some cur =>
          cases hcfg : GRID_CONFIGS r.gridSize with
          | none =>
            simp only [checkMatch, hfi, hci, hcj, if_pos heq, hcur, hcfg] at hop
            exact Option.noConfusion hop
          | some cfg =>
          by_cases hmp : r.matchedPairs + 1 = cfg.totalPairs
          · cases hq0 : (r.players.set r.currentPlayerIndex
                { cur with score := cur.score + 1 })[0]? with
            | none =>
              simp only [checkMatch, hfi, hci, hcj, if_pos heq, hcur, hcfg, if_pos hmp,
                endGame, hq0] at hop
              exact Option.noConfusion hop
            | some q0 =>
            cases hq1 : (r.players.set r.currentPlayerIndex
                { cur with score := cur.score + 1 })[1]? with
            | none =>
              simp only [checkMatch, hfi, hci, hcj, if_pos heq, hcur, hcfg, if_pos hmp,
                endGame, hq0, hq1] at hop
              exact Option.noConfusion hop
            | some q1 =>
            rw [checkMatch_match_end r i j rest c1 c2 cur q0 q1 cfg hfi hci hcj heq hcur
                  hcfg hmp hq0 hq1] at hop
            simp only [Option.some.injEq, Prod.mk.injEq] at hop
            rw [← hop.1]
            show r.matchedPairs + 1 = scoreSum _
            unfold scoreSum at hsum ⊢
            simp only []
            rw [scoreSum_set_incr r.players r.currentPlayerIndex cur hcur, ← hsum]
          · rw [checkMatch_match_continue r i j rest c1 c2 cur cfg hfi hci hcj heq hcur
                  hcfg hmp] at hop
            simp only [Option.some.injEq, Prod.mk.injEq] at hop
            rw [← hop.1]
            show r.matchedPairs + 1 = scoreSum _
            unfold scoreSum at hsum ⊢
            simp only []
            rw [scoreSum_set_incr r.players r.currentPlayerIndex cur hcur, ← hsum]
        · rw [checkMatch_mismatch r i j rest c1 c2 hfi hci hcj heq] at hop
          simp only [Option.some.injEq, Prod.mk.injEq] at hop
          rw [← hop.1]
          exact hsum
  | timerTick r r' out hst hop =>
    unfold tick at hop
    simp only [] at hop
    split at hop
    · unfold handleTimeUp at hop
      split at hop
      · cases hop
      · simp only [Option.some.injEq, Prod.mk.injEq, startTurnTimerState] at hop
        rw [← hop.1]
        exact hsum
    · split at hop <;>
      · simp only [Option.some.injEq, Prod.mk.injEq] at hop
        rw [← hop.1]
        exact hsum

-- ============================================
-- A concrete created room (used by the witnesses)
-- ============================================

/-- A fixed random source: every draw is 0 (a legal value of
`Math.floor(Math.random() * (i + 1))` at every loop index). -/
def zf : Nat → Nat := fun _ => 0

theorem createRoom_eq (reg : Registry) (genUuid gridSize : String) (js1 js2 : Nat → Nat)
    (deck : List Card) (hdeck : generateCards gridSize js1 js2 = some deck) :
    createRoom reg genUuid gridSize js1 js2 =
      some (mapSet reg ((genUuid.take 8).toUpper)
        { id := (genUuid.take 8).toUpper, gridSize := gridSize, players := [],
          cards := deck, currentPlayerIndex := 0, flippedIndices := [],
          matchedPairs := 0, status := Status.waiting, turnTimeLeft := TURN_TIME_LIMIT },
       { id := (genUuid.take 8).toUpper, gridSize := gridSize, players := [],
         cards := deck, currentPlayerIndex := 0, flippedIndices := [],
         matchedPairs := 0, status := Status.waiting, turnTimeLeft := TURN_TIME_LIMIT }) := by
  unfold createRoom
  rw [hdeck]

/-- The deck dealt by `generateCards "4x4"` under the all-zeros random
source. -/
def sampleDeck : List Card :=
  match generateCards "4x4" zf zf with
  | some deck => deck
  | none => []

theorem sampleDeck_eq : generateCards "4x4" zf zf = some sampleDeck := by
  obtain ⟨deck, hdeck, -, -, -, -⟩ :=
    generateCards_spec "4x4" ⟨4, 4, 16, 8⟩ zf zf rfl
  unfold sampleDeck
  rw [hdeck]

/-- The sample uuid used for the concrete room. -/
def sampleUuid : String := "aaaaaaaa-0000-4000-8000-000000000000"

/-- A freshly created 4x4 room. -/
def sampleRoom : Room :=
  { id := (sampleUuid.take 8).toUpper, gridSize := "4x4", players := [],
    cards := sampleDeck, currentPlayerIndex := 0, flippedIndices := [],
    matchedPairs := 0, status := Status.waiting, turnTimeLeft := TURN_TIME_LIMIT }

theorem sampleRoom_init : RoomInit sampleRoom :=
  ⟨[], sampleUuid, "4x4", zf, zf, _,
    createRoom_eq [] sampleUuid "4x4" zf zf sampleDeck sampleDeck_eq⟩

theorem sampleRoom_reachable : ReachableRoom sampleRoom :=
  ⟨sampleRoom, sampleRoom_init, Relation.ReflTransGen.refl⟩

/-- The two sample players. -/
def pA : Player := { id := "p-a", name := "Alice", avatar := "A", score := 0, isReady := false }

def pB : Player := { id := "p-b", name := "Bob", avatar := "B", score := 0, isReady := false }

/-- The sample room after both joins. -/
def sampleRoom2 : Room := { sampleRoom with players := [pA, pB] }

/-- The sample room once the game has started. -/
def sampleRoom3 : Room :=
  { sampleRoom with players := [pA, pB], status := Status.playing }

theorem sampleRoom_join1 :
    joinRoom sampleRoom pA = ({ sampleRoom with players := [pA] }, true,
      [Out.bcast (Msg.PLAYER_JOINED
        { id := "p-a", name := "Alice", avatar := "A", score := 0, isReady := false }
        (getPublicRoomState { sampleRoom with players := [pA] }))]) := rfl

theorem sampleRoom_join2 :
    joinRoom { sampleRoom with players := [pA] } pB = (sampleRoom2, true,
      [Out.bcast (Msg.PLAYER_JOINED
        { id := "p-b", name := "Bob", avatar := "B", score := 0, isReady := false }
        (getPublicRoomState sampleRoom2))]) := rfl

theorem sampleRoom_start :
    startGame sampleRoom2 zf zf =
      some (sampleRoom3, [Out.bcast (Msg.GAME_STARTED (getPublicRoomState sampleRoom3))]) := by
  show startGame sampleRoom2 zf zf = _
  unfold startGame
  rw [if_neg (by decide : ¬sampleRoom2.players.length ≠ 2)]
  have hg : sampleRoom2.gridSize = "4x4" := rfl
  rw [hg, sampleDeck_eq]
  rfl

/-- Running the turn timer for `d` ticks from a playing room never
leaves `playing` and just counts `turnTimeLeft` down, as long as it does
not reach zero. -/
theorem tickChain (r : Room) (hst : r.status = Status.playing) :
    ∀ d : Nat, d + 1 ≤ r.turnTimeLeft →
      Relation.ReflTransGen RStep r { r with turnTimeLeft := r.turnTimeLeft - d } := by
  intro d
  induction d with
  | zero =>
    intro h
    have heta : { r with turnTimeLeft := r.turnTimeLeft - 0 } = r := rfl
    rw [heta]
  | succ d ih =>
    intro h
    refine Relation.ReflTransGen.tail (ih (by omega)) ?_
    have hsub : r.turnTimeLeft - d - 1 = r.turnTimeLeft - (d + 1) := by omega
    have htk : ∃ o, tick { r with turnTimeLeft := r.turnTimeLeft - d }
        = some ({ r with turnTimeLeft := r.turnTimeLeft - (d + 1) }, o) := by
      unfold tick
      simp only []
      rw [hsub, if_neg (by omega : ¬r.turnTimeLeft - (d + 1) = 0)]
      by_cases hw : r.turnTimeLeft - (d + 1) ≤ 10
      · exact ⟨_, by rw [if_pos hw]⟩
      · exact ⟨_, by rw [if_neg hw]⟩
    obtain ⟨o, htk⟩ := htk
    exact RStep.timerTick _ _ o hst htk

/-- The playing sample room one second before a turn timeout. -/
def sampleRoomLate : Room := { sampleRoom3 with turnTimeLeft := 1 }

theorem sampleRoomLate_reachable : ReachableRoom sampleRoomLate := by
  refine ⟨sampleRoom, sampleRoom_init, ?_⟩
  have h1 : Relation.ReflTransGen RStep sampleRoom { sampleRoom with players := [pA] } :=
    Relation.ReflTransGen.single (RStep.join pA _ _ _ _ sampleRoom_join1)
  have h2 : Relation.ReflTransGen RStep sampleRoom sampleRoom2 :=
    Relation.ReflTransGen.tail h1 (RStep.join pB _ _ _ _ sampleRoom_join2)
  have h3 : Relation.ReflTransGen RStep sampleRoom sampleRoom3 :=
    Relation.ReflTransGen.tail h2 (RStep.start zf zf _ _ _ sampleRoom_start)
  have h4 := tickChain sampleRoom3 rfl 29 (by decide)
  exact h3.trans h4

-- ============================================
-- Claim theorems
-- ============================================

/-- C1: the public roomState projection broadcast to clients conceals
hidden cards — in the projection of any room, every card that is neither
flipped nor matched has `symbol = null` and `symbolId = null`. -/
theorem C1_roomState_redaction (r : Room) (c : PubCard)
    (hc : c ∈ (getPublicRoomState r).cards)
    (hf : c.isFlipped = false) (hm : c.isMatched = false) :
    c.symbol = none ∧ c.symbolId = none := by
  unfold getPublicRoomState at hc
  simp only [List.mem_map] at hc
  obtain ⟨c0, hc0, hcc⟩ := hc
  subst hcc
  simp only [] at hf hm
  simp [hf, hm]

/-- Witness for C1 at a concrete one-card room. -/
def c1Room : Room :=
  { id := "R1", gridSize := "4x4",
    players := [],
    cards := [{ id := 0, symbolId := 3, symbol := "X", isFlipped := false, isMatched := false }],
    currentPlayerIndex := 0, flippedIndices := [], matchedPairs := 0,
    status := Status.waiting, turnTimeLeft := 30 }

theorem C1_roomState_redaction_witness :
    ({ id := 0, isFlipped := false, isMatched := false,
       symbol := none, symbolId := none } : PubCard).symbol = none ∧
    ({ id := 0, isFlipped := false, isMatched := false,
       symbol := none, symbolId := none } : PubCard).symbolId = none :=
  C1_roomState_redaction c1Room
    { id := 0, isFlipped := false, isMatched := false, symbol := none, symbolId := none }
    (by decide) rfl rfl

/-- C2: with two pending flipped indices in a playing room, match
resolution is deterministic in the two pending cards: equal `symbolId`
makes both cards matched, bumps `matchedPairs`, adds one point to the
current player, and keeps the turn; unequal flips both back, clears the
pending pair, and passes the turn to the other player. -/
theorem C2_match_resolution (r : Room) (i j : Nat) (c1 c2 : Card) (cur : Player)
    (cfg : GridConfig)
    (hst : r.status = Status.playing)
    (hfi : r.flippedIndices = [i, j])
    (hci : r.cards[i]? = some c1) (hcj : r.cards[j]? = some c2)
    (hij : i ≠ j)
    (hcur : r.players[r.currentPlayerIndex]? = some cur)
    (hcfg : GRID_CONFIGS r.gridSize = some cfg)
    (hp2 : r.players.length = 2) :
    ∃ r' out, checkMatch r = some (r', out) ∧
      (c1.symbolId = c2.symbolId →
        r'.cards[i]? = some { c1 with isMatched := true } ∧
        r'.cards[j]? = some { c2 with isMatched := true } ∧
        r'.matchedPairs = r.matchedPairs + 1 ∧
        r'.players[r.currentPlayerIndex]? = some { cur with score := cur.score + 1 } ∧
        r'.currentPlayerIndex = r.currentPlayerIndex) ∧
      (¬c1.symbolId = c2.symbolId →
        r'.cards[i]? = some { c1 with isFlipped := false } ∧
        r'.cards[j]? = some { c2 with isFlipped := false } ∧
        r'.flippedIndices = [] ∧
        r'.currentPlayerIndex = (r.currentPlayerIndex + 1) % 2 ∧
        r'.matchedPairs = r.matchedPairs ∧
        r'.players = r.players) := by
  have hilt : i < r.cards.length := (List.getElem?_eq_some_iff.mp hci).1
  have hjlt : j < r.cards.length := (List.getElem?_eq_some_iff.mp hcj).1
  have hclt : r.currentPlayerIndex < r.players.length :=
    (List.getElem?_eq_some_iff.mp hcur).1
  have hgi : ((r.cards.set i { c1 with isMatched := true }).set j
      { c2 with isMatched := true })[i]? = some { c1 with isMatched := true } := by
    rw [List.getElem?_set_ne (Ne.symm hij), List.getElem?_set_self hilt]
  have hgj : ((r.cards.set i { c1 with isMatched := true }).set j
      { c2 with isMatched := true })[j]? = some { c2 with isMatched := true } := by
    rw [List.getElem?_set_self (by rw [List.length_set]; exact hjlt)]
  have hgi' : ((r.cards.set i { c1 with isFlipped := false }).set j
      { c2 with isFlipped := false })[i]? = some { c1 with isFlipped := false } := by
    rw [List.getElem?_set_ne (Ne.symm hij), List.getElem?_set_self hilt]
  have hgj' : ((r.cards.set i { c1 with isFlipped := false }).set j
      { c2 with isFlipped := false })[j]? = some { c2 with isFlipped := false } := by
    rw [List.getElem?_set_self (by rw [List.length_set]; exact hjlt)]
  have hgp : (r.players.set r.currentPlayerIndex
      { cur with score := cur.score + 1 })[r.currentPlayerIndex]?
      = some { cur with score := cur.score + 1 } :=
    List.getElem?_set_self hclt
  by_cases heq : c1.symbolId = c2.symbolId
  · by_cases hmp : r.matchedPairs + 1 = cfg.totalPairs
    · have hq0 : ∃ q0, (r.players.set r.currentPlayerIndex
          { cur with score := cur.score + 1 })[0]? = some q0 := by
        cases hg : (r.players.set r.currentPlayerIndex
            { cur with score := cur.score + 1 })[0]? with
        | none =>
          rw [List.getElem?_eq_none_iff, List.length_set] at hg
          omega
        | some q => exact ⟨q, rfl⟩
      have hq1 : ∃ q1, (r.players.set r.currentPlayerIndex
          { cur with score := cur.score + 1 })[1]? = some q1 := by
        cases hg : (r.players.set r.currentPlayerIndex
            { cur with score := cur.score + 1 })[1]? with
        | none =>
          rw [List.getElem?_eq_none_iff, List.length_set] at hg
          omega
        | some q => exact ⟨q, rfl⟩
      obtain ⟨q0, hq0⟩ := hq0
      obtain ⟨q1, hq1⟩ := hq1
      refine ⟨_, _, checkMatch_match_end r i j [] c1 c2 cur q0 q1 cfg hfi hci hcj heq
        hcur hcfg hmp hq0 hq1, fun _ => ⟨hgi, hgj, rfl, hgp, rfl⟩,
        fun hne => absurd heq hne⟩
    · refine ⟨_, _, checkMatch_match_continue r i j [] c1 c2 cur cfg hfi hci hcj heq
        hcur hcfg hmp, fun _ => ⟨hgi, hgj, rfl, hgp, rfl⟩,
        fun hne => absurd heq hne⟩
  · exact ⟨_, _, checkMatch_mismatch r i j [] c1 c2 hfi hci hcj heq,
      fun he => absurd he heq, fun _ => ⟨hgi', hgj', rfl, rfl, rfl, rfl⟩⟩

/-- Witness room for C2: a playing 2-player room with a matching pending
pair at indices 0 and 1. -/
def c2c1 : Card := { id := 0, symbolId := 5, symbol := "X", isFlipped := true, isMatched := false }

def c2c2 : Card := { id := 1, symbolId := 5, symbol := "X", isFlipped := true, isMatched := false }

def c2Room : Room :=
  { id := "R2", gridSize := "4x4",
    players := [pA, pB],
    cards := [c2c1, c2c2,
              { id := 2, symbolId := 7, symbol := "Y", isFlipped := false, isMatched := false }],
    currentPlayerIndex := 0, flippedIndices := [0, 1], matchedPairs := 0,
    status := Status.playing, turnTimeLeft := 17 }

theorem C2_match_resolution_witness :
    ∃ r' out, checkMatch c2Room = some (r', out) ∧
      (c2c1.symbolId = c2c2.symbolId →
        r'.cards[0]? = some { c2c1 with isMatched := true } ∧
        r'.cards[1]? = some { c2c2 with isMatched := true } ∧
        r'.matchedPairs = c2Room.matchedPairs + 1 ∧
        r'.players[c2Room.currentPlayerIndex]? = some { pA with score := pA.score + 1 } ∧
        r'.currentPlayerIndex = c2Room.currentPlayerIndex) ∧
      (¬c2c1.symbolId = c2c2.symbolId →
        r'.cards[0]? = some { c2c1 with isFlipped := false } ∧
        r'.cards[1]? = some { c2c2 with isFlipped := false } ∧
        r'.flippedIndices = [] ∧
        r'.currentPlayerIndex = (c2Room.currentPlayerIndex + 1) % 2 ∧
        r'.matchedPairs = c2Room.matchedPairs ∧
        r'.players = c2Room.players) :=
  C2_match_resolution c2Room 0 1 c2c1 c2c2 pA ⟨4, 4, 16, 8⟩
    rfl rfl rfl rfl (by decide) rfl rfl rfl

/-- Counterexample room for C4: a playing room whose card 0 is already
flipped; the current player's flip of index 0 is rejected with NO reply
of any kind (the claim says every rejected flip gets a targeted error
reply). -/
def c4Room : Room :=
  { id := "R4", gridSize := "4x4",
    players := [pA, pB],
    cards := [{ id := 0, symbolId := 5, symbol := "X", isFlipped := true, isMatched := false },
              { id := 1, symbolId := 5, symbol := "X", isFlipped := false, isMatched := false }],
    currentPlayerIndex := 0, flippedIndices := [0], matchedPairs := 0,
    status := Status.playing, turnTimeLeft := 20 }

/-- C4 counterexample: in `c4Room` (playing, it is pA's turn, index 0 in
bounds but already flipped) the flip is rejected — the state is unchanged
— yet the reply list is empty: no targeted ERROR is sent. -/
theorem C4_counterexample :
    c4Room.status = Status.playing ∧
    c4Room.cards[(0 : Int).toNat]? =
      some { id := 0, symbolId := 5, symbol := "X", isFlipped := true, isMatched := false } ∧
    flipCardMessage c4Room pA 0 = (c4Room, []) := by
  refine ⟨rfl, rfl, ?_⟩
  decide

/-- C4 (amended): every rejected flip leaves the room unchanged; the
room-not-playing, out-of-turn, and out-of-bounds rejections send a
targeted ERROR reply to the offending connection, while the
already-flipped-or-matched and two-cards-pending rejections are silent
(no reply at all, no state change). -/
theorem C4_flip_rejections (r : Room) (p : Player) (ci : Int) :
    (¬r.status = Status.playing →
      flipCardMessage r p ci = (r, [Out.toPlayer p.id (Msg.ERROR "Game not in progress")])) ∧
    (r.status = Status.playing →
      playerIndexOf r p ≠ Int.ofNat r.currentPlayerIndex →
      flipCardMessage r p ci = (r, [Out.toPlayer p.id (Msg.ERROR "Not your turn!")])) ∧
    (r.status = Status.playing →
      playerIndexOf r p = Int.ofNat r.currentPlayerIndex →
      (ci < 0 ∨ (r.cards.length : Int) ≤ ci) →
      flipCardMessage r p ci = (r, [Out.toPlayer p.id (Msg.ERROR "Invalid card index")])) ∧
    (∀ card, r.status = Status.playing →
      playerIndexOf r p = Int.ofNat r.currentPlayerIndex →
      ¬(ci < 0 ∨ (r.cards.length : Int) ≤ ci) →
      r.cards[ci.toNat]? = some card →
      (card.isFlipped = true ∨ card.isMatched = true) →
      flipCardMessage r p ci = (r, [])) ∧
    (∀ card, r.status = Status.playing →
      playerIndexOf r p = Int.ofNat r.currentPlayerIndex →
      ¬(ci < 0 ∨ (r.cards.length : Int) ≤ ci) →
      r.cards[ci.toNat]? = some card →
      card.isFlipped = false → card.isMatched = false →
      2 ≤ r.flippedIndices.length →
      flipCardMessage r p ci = (r, [])) := by
  refine ⟨?_, ?_, ?_, ?_, ?_⟩
  · intro hst
    unfold flipCardMessage
    rw [if_pos hst]
  · intro hst hturn
    unfold flipCardMessage handleFlipCard
    rw [if_neg (by simp [hst]), if_pos (by simpa using hturn)]
  · intro hst hturn hoob
    unfold flipCardMessage handleFlipCard
    rw [if_neg (by simp [hst]), if_neg (by simpa using hturn), if_pos hoob]
  · intro card hst hturn hoob hcard hfm
    unfold flipCardMessage handleFlipCard
    rw [if_neg (by simp [hst]), if_neg (by simpa using hturn), if_neg hoob, hcard]
    split
    · rfl
    · rename_i card' heq'
      injection heq' with heq2
      subst heq2
      rw [if_pos (by simpa using hfm)]
  · intro card hst hturn hoob hcard hf hm hpend
    unfold flipCardMessage handleFlipCard
    rw [if_neg (by simp [hst]), if_neg (by simpa using hturn), if_neg hoob, hcard]
    split
    · rfl
    · rename_i card' heq'
      injection heq' with heq2
      subst heq2
      rw [if_neg (by simp [hf, hm]), if_pos hpend]

/-- Witness for C4 (amended): the out-of-bounds rejection at a concrete
room replies with the "Invalid card index" error and leaves the room as
it was. -/
theorem C4_flip_rejections_witness :
    flipCardMessage c4Room pA 7 = (c4Room, [Out.toPlayer pA.id (Msg.ERROR "Invalid card index")]) :=
  (C4_flip_rejections c4Room pA 7).2.2.1 rfl (by decide) (by decide)

/-- C5: in every reachable room state at most two indices are pending in
`flippedIndices`, and any flip attempt while two are pending leaves the
entire room state unchanged (no third index is appended and no card is
flipped). -/
theorem C5_flipped_indices_bound :
    (∀ r, ReachableRoom r → r.flippedIndices.length ≤ 2) ∧
    (∀ r (p : Player) (ci : Int), 2 ≤ r.flippedIndices.length →
      (flipCardMessage r p ci).1 = r) := by
  constructor
  · intro r hr
    exact (roomInv_reachable r hr).flipLe
  · intro r p ci hpend
    unfold flipCardMessage
    split
    · rfl
    · rcases handleFlipCard_state r p ci with hc | ⟨ci', card, -, -, -, -, hlt, -⟩
      · exact hc
      · omega

/-- Concrete room with two pending indices for the C5 witness. -/
def c5Room : Room := { c4Room with flippedIndices := [0, 1] }

theorem C5_flipped_indices_bound_witness :
    sampleRoom.flippedIndices.length ≤ 2 ∧ (flipCardMessage c5Room pA 1).1 = c5Room :=
  ⟨C5_flipped_indices_bound.1 sampleRoom sampleRoom_reachable,
   C5_flipped_indices_bound.2 c5Room pA 1 (by decide)⟩

/-- C3: on every reachable room `matchedPairs` never exceeds the grid's
total pair count; a server event moves a room into `finished` exactly
when it raises `matchedPairs` to the total; and the game-end broadcast
names the strictly-higher-scoring player as winner, or declares a draw on
equal scores. -/
theorem C3_game_end :
    (∀ r, ReachableRoom r → r.matchedPairs ≤ gridTotalPairs r.gridSize) ∧
    (∀ r r', ReachableRoom r → RStep r r' →
      ((r'.status = Status.finished ∧ ¬r.status = Status.finished) ↔
        (r'.matchedPairs = gridTotalPairs r'.gridSize ∧
         r'.matchedPairs = r.matchedPairs + 1))) ∧
    (∀ r (p1 p2 : Player) r' out, r.players = [p1, p2] →
      endGame r = some (r', out) →
      r'.status = Status.finished ∧
      ∃ w d ps,
        out = [Out.bcast (Msg.GAME_ENDED w d [(p1.id, p1.score), (p2.id, p2.score)] ps)] ∧
        (p2.score < p1.score → w = some p1.id ∧ d = false) ∧
        (p1.score < p2.score → w = some p2.id ∧ d = false) ∧
        (p1.score = p2.score → w = none ∧ d = true)) := by
  refine ⟨?_, ?_, ?_⟩
  · intro r hr
    have hinv := roomInv_reachable r hr
    have hc := hinv.matchedCount
    have hl := hinv.cardsLen
    have := List.countP_le_length (fun c => c.isMatched) (l := r.cards)
    omega
  · intro r r' hr hstep
    have hinv := roomInv_reachable r hr
    cases hstep with
    | join p r r' ok out hop =>
      have hr' : r' = (joinRoom r p).1 := by rw [hop]
      obtain ⟨hs, hm, -⟩ := joinRoom_fields r p
      rw [← hr'] at hs hm
      refine iff_of_false (fun ⟨h1, h2⟩ => h2 (hs ▸ h1)) (fun ⟨_, h2⟩ => by omega)
    | start js1 js2 r r' out hop =>
      rcases startGame_fields r r' js1 js2 out hop with hid | ⟨hs, hm⟩
      · subst hid
        refine iff_of_false (fun ⟨h1, h2⟩ => h2 h1) (fun ⟨_, h2⟩ => by omega)
      · refine iff_of_false (fun ⟨h1, _⟩ => by rw [hs] at h1; cases h1)
          (fun ⟨_, h2⟩ => by omega)
    | flip p i r r' out hop =>
      have hr' : r' = (flipCardMessage r p i).1 := by rw [hop]
      obtain ⟨hs, hm, -⟩ := flipCardMessage_fields r p i
      rw [← hr'] at hs hm
      refine iff_of_false (fun ⟨h1, h2⟩ => h2 (hs ▸ h1)) (fun ⟨_, h2⟩ => by omega)
    | resolve r r' out hst hop =>
      obtain ⟨hgs, hout⟩ := checkMatch_outcome r r' out hinv hst hop
      rcases hout with ⟨hs, hm, htp⟩ | ⟨hs, hm, htp⟩ | ⟨hs, hm⟩
      · refine iff_of_true ⟨hs, by rw [hst]; simp⟩ ⟨by rw [hgs]; exact htp, hm⟩
      · refine iff_of_false (fun ⟨h1, _⟩ => by rw [hs] at h1; cases h1)
          (fun ⟨h1, _⟩ => by rw [hgs] at h1; omega)
      · refine iff_of_false (fun ⟨h1, _⟩ => by rw [hs] at h1; cases h1)
          (fun ⟨_, h2⟩ => by omega)
    | timerTick r r' out hst hop =>
      obtain ⟨hs, hm, -⟩ := tick_fields r r' out hop
      refine iff_of_false (fun ⟨h1, h2⟩ => h2 (hs ▸ h1)) (fun ⟨_, h2⟩ => by omega)
    | rematch js1 js2 r r' out hfin hp hop =>
      rcases startGame_fields r r' js1 js2 out hop with hid | ⟨hs, hm⟩
      · subst hid
        refine iff_of_false (fun ⟨h1, h2⟩ => h2 h1) (fun ⟨_, h2⟩ => by omega)
      · refine iff_of_false (fun ⟨h1, _⟩ => by rw [hs] at h1; cases h1)
          (fun ⟨_, h2⟩ => by omega)
    | leave pid r r' out hop =>
      obtain ⟨hs, hm, -⟩ := leaveRoom_fields r r' pid out hop
      refine iff_of_false (fun ⟨h1, _⟩ => by rw [hs] at h1; cases h1)
        (fun ⟨_, h2⟩ => by omega)
  · intro r p1 p2 r' out hp hend
    rw [endGame_spec r p1 p2 hp] at hend
    simp only [Option.some.injEq, Prod.mk.injEq] at hend
    obtain ⟨hr, hout⟩ := hend
    refine ⟨by rw [← hr], _, _, _, hout.symm, ?_, ?_, ?_⟩
    · intro hgt
      rw [if_pos hgt, if_pos hgt]
      exact ⟨rfl, rfl⟩
    · intro hlt
      have h1 : ¬p2.score < p1.score := by omega
      rw [if_neg h1, if_neg h1, if_pos hlt, if_pos hlt]
      exact ⟨rfl, rfl⟩
    · intro heqs
      have h1 : ¬p2.score < p1.score := by omega
      have h2 : ¬p1.score < p2.score := by omega
      rw [if_neg h1, if_neg h1, if_neg h2, if_neg h2]
      exact ⟨rfl, rfl⟩

theorem C3_game_end_witness :
    sampleRoom.matchedPairs ≤ gridTotalPairs sampleRoom.gridSize :=
  C3_game_end.1 sampleRoom sampleRoom_reachable

/-- C6: in a reachable playing room whose countdown is about to hit zero,
the next timer tick runs the timeout handler: every flipped unmatched
card is put face down again, the pending pair is cleared, the turn passes
to the other player, a single TURN_TIMEOUT event carrying the fresh room
state is broadcast, and the timer restarts at the full 30-second limit. -/
theorem C6_turn_timeout (r : Room) (hreach : ReachableRoom r)
    (hst : r.status = Status.playing) (htt : r.turnTimeLeft = 1) :
    ∃ r', tick r = some (r', [Out.bcast (Msg.TURN_TIMEOUT r'.currentPlayerIndex
        (getPublicRoomState { r' with turnTimeLeft := 0 }))]) ∧
      (∀ (i : Nat) (c : Card), r.cards[i]? = some c → c.isFlipped = true →
        c.isMatched = false →
        ∃ c' : Card, r'.cards[i]? = some c' ∧ c'.isFlipped = false) ∧
      r'.flippedIndices = [] ∧
      r'.currentPlayerIndex = (r.currentPlayerIndex + 1) % 2 ∧
      ¬r'.currentPlayerIndex = r.currentPlayerIndex ∧
      r'.turnTimeLeft = TURN_TIME_LIMIT := by
  have hinv := roomInv_reachable r hreach
  have hbounds : ∀ i ∈ r.flippedIndices, i < r.cards.length := hinv.flipLt
  obtain ⟨res, hres⟩ := flipBackAll_isSome r.cards r.flippedIndices hbounds
  have hget := flipBackAll_getElem? r.cards res r.flippedIndices hres
  refine ⟨{ r with cards := res, flippedIndices := [], currentPlayerIndex := (r.currentPlayerIndex + 1) % 2, turnTimeLeft := TURN_TIME_LIMIT }, ?_, ?_, rfl, rfl, ?_, rfl⟩
  · -- the tick fires the timeout handler and broadcasts once
    unfold tick
    simp only []
    rw [htt]
    simp only [Nat.sub_self, if_pos rfl]
    unfold handleTimeUp
    have hres' : flipBackAll r.cards r.flippedIndices = some res := hres
    simp only []
    rw [show ({ r with turnTimeLeft := 1 - 1 } : Room).cards = r.cards from rfl]
    rw [show ({ r with turnTimeLeft := 1 - 1 } : Room).flippedIndices
          = r.flippedIndices from rfl]
    rw [hres']
    rfl
  · intro i c hc hf hm
    have hmem : i ∈ r.flippedIndices :=
      (hinv.flipSync hst i c hc).mp ⟨hf, hm⟩
    refine ⟨{ c with isFlipped := false }, ?_, rfl⟩
    show res[i]? = _
    rw [hget i, if_pos hmem, hc]
    rfl
  · have := hinv.cpiLt
    show ¬(r.currentPlayerIndex + 1) % 2 = r.currentPlayerIndex
    omega

theorem C6_turn_timeout_witness :
    ∃ r', tick sampleRoomLate = some (r', [Out.bcast (Msg.TURN_TIMEOUT r'.currentPlayerIndex
        (getPublicRoomState { r' with turnTimeLeft := 0 }))]) ∧
      (∀ (i : Nat) (c : Card), sampleRoomLate.cards[i]? = some c → c.isFlipped = true →
        c.isMatched = false →
        ∃ c' : Card, r'.cards[i]? = some c' ∧ c'.isFlipped = false) ∧
      r'.flippedIndices = [] ∧
      r'.currentPlayerIndex = (sampleRoomLate.currentPlayerIndex + 1) % 2 ∧
      ¬r'.currentPlayerIndex = sampleRoomLate.currentPlayerIndex ∧
      r'.turnTimeLeft = TURN_TIME_LIMIT :=
  C6_turn_timeout sampleRoomLate sampleRoomLate_reachable rfl rfl

/-- C7: for each of the three supported grid sizes the deck generator
succeeds and returns exactly `2 × totalPairs` cards in which every
present `symbolId` occurs exactly twice, all card ids are distinct, and
every card starts face down and unmatched; and it throws exactly when the
grid size is not one of `4x4`, `4x6`, `6x6`. -/
theorem C7_deck_generation :
    (∀ gridSize cfg (js1 js2 : Nat → Nat), GRID_CONFIGS gridSize = some cfg →
      ∃ deck, generateCards gridSize js1 js2 = some deck ∧
        deck.length = 2 * cfg.totalPairs ∧
        (∀ s ∈ deck.map (·.symbolId),
          (deck.filter fun c => c.symbolId == s).length = 2) ∧
        (deck.map (·.id)).Nodup ∧
        (∀ c ∈ deck, c.isFlipped = false ∧ c.isMatched = false)) ∧
    (∀ gridSize (js1 js2 : Nat → Nat),
      generateCards gridSize js1 js2 = none ↔
        (¬gridSize = "4x4" ∧ ¬gridSize = "4x6" ∧ ¬gridSize = "6x6")) := by
  refine ⟨generateCards_spec, ?_⟩
  intro gridSize js1 js2
  rw [generateCards_none_iff]
  unfold GRID_CONFIGS
  split_ifs with h1 h2 h3 <;> simp_all

theorem C7_deck_generation_witness :
    ∃ deck, generateCards "4x4" zf zf = some deck ∧
      deck.length = 2 * (⟨4, 4, 16, 8⟩ : GridConfig).totalPairs ∧
      (∀ s ∈ deck.map (·.symbolId),
        (deck.filter fun c => c.symbolId == s).length = 2) ∧
      (deck.map (·.id)).Nodup ∧
      (∀ c ∈ deck, c.isFlipped = false ∧ c.isMatched = false) :=
  C7_deck_generation.1 "4x4" ⟨4, 4, 16, 8⟩ zf zf rfl

/-- A finished room with both players still present. -/
def c8Room : Room :=
  { id := "R8", gridSize := "4x4",
    players := [{ pA with score := 5 }, { pB with score := 3 }],
    cards := [{ id := 0, symbolId := 5, symbol := "X", isFlipped := true, isMatched := true }],
    currentPlayerIndex := 0, flippedIndices := [], matchedPairs := 8,
    status := Status.finished, turnTimeLeft := 12 }

/-- C8 counterexample: a player leaving a finished room with another
player remaining sends the room's status straight from finished to
waiting — the transition the claim rules out. -/
theorem C8_counterexample :
    c8Room.status = Status.finished ∧
    ((leaveRoom c8Room "p-a").1.map fun r => r.status) = some Status.waiting := by
  exact ⟨rfl, by decide⟩

/-- C8 (amended): no operation other than leaveRoom ever moves a room's
status from finished to waiting — join, start, flip, match resolution,
rematch (the REMATCH path is `startGame`) and timer ticks/timeouts never
produce a waiting room from a finished one; leaveRoom is the exception
(see the counterexample). -/
theorem C8_no_finished_to_waiting (r : Room) (hfin : r.status = Status.finished) :
    (∀ p : Player, ¬(joinRoom r p).1.status = Status.waiting) ∧
    (∀ (js1 js2 : Nat → Nat) r' out, startGame r js1 js2 = some (r', out) →
      ¬r'.status = Status.waiting) ∧
    (∀ (p : Player) (ci : Int), ¬(flipCardMessage r p ci).1.status = Status.waiting) ∧
    (∀ r' out, checkMatch r = some (r', out) → ¬r'.status = Status.waiting) ∧
    (∀ r' out, tick r = some (r', out) → ¬r'.status = Status.waiting) := by
  refine ⟨?_, ?_, ?_, ?_, ?_⟩
  · intro p hw
    rw [(joinRoom_fields r p).1, hfin] at hw
    cases hw
  · intro js1 js2 r' out hop hw
    rcases startGame_fields r r' js1 js2 out hop with hid | ⟨hs, -⟩
    · subst hid
      rw [hfin] at hw
      cases hw
    · rw [hs] at hw
      cases hw
  · intro p ci hw
    rw [(flipCardMessage_fields r p ci).1, hfin] at hw
    cases hw
  · intro r' out hop hw
    obtain ⟨-, hout⟩ := checkMatch_general r r' out hop
    rcases hout with ⟨hs, -⟩ | ⟨-, hs | hs⟩ <;> rw [hs] at hw
    · rw [hfin] at hw
      cases hw
    · rw [hfin] at hw
      cases hw
    · cases hw
  · intro r' out hop hw
    rw [(tick_fields r r' out hop).1, hfin] at hw
    cases hw

theorem C8_no_finished_to_waiting_witness :
    ¬(joinRoom c8Room pA).1.status = Status.waiting :=
  (C8_no_finished_to_waiting c8Room rfl).1 pA

/-- The pre-existing room whose id collides with the id generated for the
new room (both are the first 8 characters of the sample uuid,
upper-cased). -/
def c9rA : Room :=
  { id := (sampleUuid.take 8).toUpper, gridSize := "6x6", players := [pA, pB],
    cards := [], currentPlayerIndex := 0, flippedIndices := [], matchedPairs := 0,
    status := Status.playing, turnTimeLeft := 30 }

def c9reg : Registry := [((sampleUuid.take 8).toUpper, c9rA)]

/-- C9 counterexample: `createRoom` performs no collision check — when
the freshly generated id equals an existing room's id, the new room is
`Map.set` over the old entry, which silently evicts the existing room
from the registry. -/
theorem C9_counterexample :
    ∃ reg' room, createRoom c9reg sampleUuid "4x4" zf zf = some (reg', room) ∧
      room.id = c9rA.id ∧ reg' = [(c9rA.id, room)] ∧ ¬room = c9rA := by
  have h := createRoom_eq c9reg sampleUuid "4x4" zf zf sampleDeck sampleDeck_eq
  refine ⟨_, _, h, ?_, ?_, ?_⟩
  case refine_1 => rfl
  case refine_2 =>
    show mapSet c9reg ((sampleUuid.take 8).toUpper) _ = _
    unfold mapSet c9reg
    rw [if_pos (by simp)]
    simp [c9rA]
  case refine_3 =>
    intro hcontra
    have hcards := congrArg (fun room => room.cards.length) hcontra
    obtain ⟨deck, hdeck, hlen, -, -, -⟩ :=
      generateCards_spec "4x4" ⟨4, 4, 16, 8⟩ zf zf rfl
    rw [sampleDeck_eq] at hdeck
    cases hdeck
    simp only [] at hcards
    rw [hlen] at hcards
    cases hcards

/-- C9 (amended): matchmaking returns the first registry entry (in
iteration order) that matches the requested grid size, is waiting and has
fewer than two players, or reports none when no entry qualifies; room
creation uses the first 8 characters of a fresh uuid (upper-cased) as id
WITHOUT any collision check — an id hit replaces the existing entry in
place (same registry length), a miss appends — so registry keys stay
unique only by virtue of `Map.set` semantics. -/
theorem C9_matchmaking :
    (∀ reg gs r, findAvailableRoom reg gs = some r →
      ∃ pre kr post, reg = pre ++ kr :: post ∧ r = kr.2 ∧
        (kr.2.gridSize = gs ∧ kr.2.status = Status.waiting ∧ kr.2.players.length < 2) ∧
        ∀ kr' ∈ pre, ¬(kr'.2.gridSize = gs ∧ kr'.2.status = Status.waiting ∧
          kr'.2.players.length < 2)) ∧
    (∀ reg gs, findAvailableRoom reg gs = none →
      ∀ kr ∈ reg, ¬(kr.2.gridSize = gs ∧ kr.2.status = Status.waiting ∧
        kr.2.players.length < 2)) ∧
    (∀ reg genUuid gs (js1 js2 : Nat → Nat) reg' room,
      createRoom reg genUuid gs js1 js2 = some (reg', room) →
      room.id = (genUuid.take 8).toUpper ∧
      ((reg.map (·.1)).Nodup → (reg'.map (·.1)).Nodup) ∧
      (reg.any (fun kr => kr.1 == room.id) = true →
        reg'.length = reg.length ∧ (room.id, room) ∈ reg') ∧
      (reg.any (fun kr => kr.1 == room.id) = false →
        reg' = reg ++ [(room.id, room)])) := by
  refine ⟨?_, ?_, ?_⟩
  · intro reg gs r hfind
    unfold findAvailableRoom at hfind
    cases hf : reg.find? fun kr =>
        kr.2.gridSize == gs && kr.2.status == Status.waiting
          && decide (kr.2.players.length < 2) with
    | none => rw [hf] at hfind; cases hfind
    | some kr =>
      rw [hf] at hfind
      simp only [Option.map_some', Option.some.injEq] at hfind
      obtain ⟨pre, post, hsplit, hp, hpre⟩ := find?_first _ reg kr hf
      refine ⟨pre, kr, post, hsplit, hfind.symm, ?_, ?_⟩
      · simpa [Bool.and_eq_true, beq_iff_eq, decide_eq_true_eq, and_assoc] using hp
      · intro kr' hkr'
        have := hpre kr' hkr'
        simpa [Bool.and_eq_true, beq_iff_eq, decide_eq_true_eq, and_assoc] using this
  · intro reg gs hfind
    unfold findAvailableRoom at hfind
    cases hf : reg.find? fun kr =>
        kr.2.gridSize == gs && kr.2.status == Status.waiting
          && decide (kr.2.players.length < 2) with
    | some kr => rw [hf] at hfind; cases hfind
    | none =>
      rw [List.find?_eq_none] at hf
      intro kr hkr
      have := hf kr hkr
      simpa [Bool.and_eq_true, beq_iff_eq, decide_eq_true_eq] using this
  · intro reg genUuid gs js1 js2 reg' room hcr
    unfold createRoom at hcr
    cases hgen : generateCards gs js1 js2 with
    | none => rw [hgen] at hcr; cases hcr
    | some deck =>
      rw [hgen] at hcr
      simp only [Option.some.injEq, Prod.mk.injEq] at hcr
      obtain ⟨hreg, hroom⟩ := hcr
      subst hreg
      subst hroom
      refine ⟨rfl, ?_, ?_, ?_⟩
      · exact fun hnodup => mapSet_nodup_keys reg _ _ hnodup
      · intro hany
        exact mapSet_replace reg _ _ hany
      · intro hnone
        unfold mapSet
        rw [if_neg (by rw [hnone]; simp)]

theorem C9_matchmaking_witness :
    ∃ reg' room, createRoom [] sampleUuid "4x4" zf zf = some (reg', room) ∧
      room.id = (sampleUuid.take 8).toUpper ∧ reg' = [] ++ [(room.id, room)] :=
  have h := createRoom_eq [] sampleUuid "4x4" zf zf sampleDeck sampleDeck_eq
  have hparts := (C9_matchmaking.2.2 [] sampleUuid "4x4" zf zf _ _ h)
  ⟨_, _, h, hparts.1, hparts.2.2.2 rfl⟩

/-- C10 (implicit): for a room with two players, from the completion of a
game start (or rematch — the same `startGame`) and across any sequence of
flips, match resolutions and timer ticks (no join or leave), the number
of matched pairs always equals the sum of the players' scores. -/
theorem C10_score_invariant (r : Room) (js1 js2 : Nat → Nat) (r0 rn : Room)
    (out : List Out)
    (hp : r.players.length = 2)
    (hstart : startGame r js1 js2 = some (r0, out))
    (hsteps : Relation.ReflTransGen GameStep r0 rn) :
    rn.matchedPairs = scoreSum rn := by
  have h0 : r0.matchedPairs = scoreSum r0 := by
    unfold startGame at hstart
    rw [if_neg (by omega)] at hstart
    cases hgen : generateCards r.gridSize js1 js2 with
    | none => rw [hgen] at hstart; cases hstart
    | some deck =>
      rw [hgen] at hstart
      simp only [Option.some.injEq, Prod.mk.injEq, startTurnTimerState] at hstart
      rw [← hstart.1]
      show 0 = scoreSum _
      unfold scoreSum
      simp only []
      rw [List.map_map]
      symm
      apply List.sum_eq_zero
      intro x hx
      rw [List.mem_map] at hx
      obtain ⟨p, -, hpx⟩ := hx
      rw [← hpx]
      rfl
  induction hsteps with
  | refl => exact h0
  | tail _ hstep ih => exact scoreSum_gameStep _ _ hstep ih

theorem C10_score_invariant_witness :
    sampleRoom3.matchedPairs = scoreSum sampleRoom3 :=
  C10_score_invariant sampleRoom2 zf zf sampleRoom3 sampleRoom3 _ rfl
    sampleRoom_start Relation.ReflTransGen.refl
